import Mathlib

/-!
# SubSentry — verification of the subscription detection & normalization core

A shallow embedding, in Lean 4, of the algorithmic core of the SubSentry
SaaS-spend application: the CSV transaction normalizer (`csv-parser.ts`),
the vendor pattern registry (`saas-vendors.ts`), the frequency / renewal
estimator (`renewal-detection.ts`), the two-stage email extraction pipeline
(`subscription-extraction.ts`) and the Gmail scan pipeline (`gmail.ts`).

Strings are treated as sequences of `Char`; JavaScript string methods
(`toLowerCase`, `trim`, regex replaces) are embedded for the ASCII range,
which is the range exercised by the code's keyword tables and regexes.
JavaScript numbers are embedded as `ℚ` (exact arithmetic; the code performs
no operation where binary-float rounding could cross any of its decision
thresholds on calendar-scale data).  JavaScript `Date` values are embedded
as calendar dates (year / month-index / day) with the normalization rules
of the `Date` setters; time of day is not modelled, and date comparison is
lexicographic.
-/

namespace SubSentry

/-! ## JS string primitives (ASCII fragment) -/

/-- Embedding of `String.prototype.toLowerCase` on one ASCII character. -/
def jsLowerChar (c : Char) : Char :=
  match c with
  | 'A' => 'a' | 'B' => 'b' | 'C' => 'c' | 'D' => 'd' | 'E' => 'e'
  | 'F' => 'f' | 'G' => 'g' | 'H' => 'h' | 'I' => 'i' | 'J' => 'j'
  | 'K' => 'k' | 'L' => 'l' | 'M' => 'm' | 'N' => 'n' | 'O' => 'o'
  | 'P' => 'p' | 'Q' => 'q' | 'R' => 'r' | 'S' => 's' | 'T' => 't'
  | 'U' => 'u' | 'V' => 'v' | 'W' => 'w' | 'X' => 'x' | 'Y' => 'y'
  | 'Z' => 'z'
  | c => c

/-- Embedding of `String.prototype.toUpperCase` on one ASCII character. -/
def jsUpperChar (c : Char) : Char :=
  match c with
  | 'a' => 'A' | 'b' => 'B' | 'c' => 'C' | 'd' => 'D' | 'e' => 'E'
  | 'f' => 'F' | 'g' => 'G' | 'h' => 'H' | 'i' => 'I' | 'j' => 'J'
  | 'k' => 'K' | 'l' => 'L' | 'm' => 'M' | 'n' => 'N' | 'o' => 'O'
  | 'p' => 'P' | 'q' => 'Q' | 'r' => 'R' | 's' => 'S' | 't' => 'T'
  | 'u' => 'U' | 'v' => 'V' | 'w' => 'W' | 'x' => 'X' | 'y' => 'Y'
  | 'z' => 'Z'
  | c => c

/-- The regex class `\s` (ASCII members). -/
def isWS (c : Char) : Bool :=
  c = ' ' || c = '\t' || c = '\n' || c = '\r' || c = '\x0b' || c = '\x0c'

/-- ASCII decimal digit (`\d`). -/
def isDigitCh (c : Char) : Bool :=
  '0' ≤ c && c ≤ '9'

/-- ASCII letter. -/
def isLetterCh (c : Char) : Bool :=
  ('a' ≤ c && c ≤ 'z') || ('A' ≤ c && c ≤ 'Z')

/-- The regex class `\w` (ASCII members): letter, digit or underscore. -/
def isWordCh (c : Char) : Bool :=
  isLetterCh c || isDigitCh c || c = '_'

/-- The regex class `[A-Za-z0-9]`. -/
def isAlnumCh (c : Char) : Bool :=
  isLetterCh c || isDigitCh c

def jsLower (s : List Char) : List Char := s.map jsLowerChar

def jsLowerStr (s : String) : String := ⟨jsLower s.data⟩

def jsUpperStr (s : String) : String := ⟨s.data.map jsUpperChar⟩

/-- Embedding of `String.prototype.trim` (ASCII whitespace). -/
def jsTrim (s : List Char) : List Char :=
  ((s.dropWhile isWS).reverse.dropWhile isWS).reverse

def jsTrimStr (s : String) : String := ⟨jsTrim s.data⟩

/-- `pat` is an initial segment of `t`. -/
def leadsWith : List Char → List Char → Bool
  | [], _ => true
  | _ :: _, [] => false
  | p :: ps, c :: cs => p = c && leadsWith ps cs

/-- `pat` occurs somewhere inside `t` (regex `.test` of a literal pattern). -/
def containsSub (pat : List Char) : List Char → Bool
  | [] => pat.isEmpty
  | c :: cs => leadsWith pat (c :: cs) || containsSub pat cs

def containsStr (t : String) (pat : String) : Bool :=
  containsSub pat.data t.data

/-- `pat` is an initial segment of `t`; on success return the remainder of `t`. -/
def leadsWithRem : List Char → List Char → Option (List Char)
  | [], t => some t
  | _ :: _, [] => none
  | p :: ps, c :: cs => if p = c then leadsWithRem ps cs else none

/-- Case-insensitive `leadsWithRem`: `pat` is given lowercased, `t` is raw text. -/
def leadsWithRemCI : List Char → List Char → Option (List Char)
  | [], t => some t
  | _ :: _, [] => none
  | p :: ps, c :: cs => if p = jsLowerChar c then leadsWithRemCI ps cs else none

def leadsWithCI (pat t : List Char) : Bool :=
  (leadsWithRemCI pat t).isSome

/-- Scan left to right and return the first position where `f` succeeds
(leftmost-match regex semantics). -/
def scanFirst (f : List Char → Option α) : List Char → Option α
  | [] => f []
  | c :: cs =>
    match f (c :: cs) with
    | some x => some x
    | none => scanFirst f cs

/-- Embedding of the one-argument `String.prototype.replace(/\s+/g, ' ')`:
collapse every maximal whitespace run to a single space. -/
def collapseWS : List Char → List Char
  | [] => []
  | [c] => if isWS c then [' '] else [c]
  | c :: d :: cs =>
    if isWS c then
      if isWS d then collapseWS (d :: cs)
      else ' ' :: collapseWS (d :: cs)
    else c :: collapseWS (d :: cs)

/-- `replace(/\s+/g, '')`: remove all whitespace. -/
def removeWS (s : List Char) : List Char := s.filter (fun c => !isWS c)

/-- `replace(/[^\w\s]/g, '')`: keep only word characters and whitespace. -/
def keepWordWS (s : List Char) : List Char :=
  s.filter (fun c => isWordCh c || isWS c)

/-! ## JS number parsing -/

def digitVal (c : Char) : Nat := c.toNat - '0'.toNat

def digitsToNat (ds : List Char) : Nat :=
  ds.foldl (fun acc c => 10 * acc + digitVal c) 0

/-- Scanning phase of `parseFloat`: sign, mantissa digits (as a `Nat`),
number of fraction digits, and exponent of the longest valid numeric
literal at the head of the string (`none` for `NaN`; the `Infinity`
literal, never produced by this code base, is not modelled). -/
def jsParseFloatParts (s : List Char) : Option (Bool × Nat × Nat × Int) :=
  let s := s.dropWhile isWS
  let (neg, s) :=
    match s with
    | '-' :: rest => (true, rest)
    | '+' :: rest => (false, rest)
    | _ => (false, s)
  let intPart := s.takeWhile isDigitCh
  let s1 := s.drop intPart.length
  let (fracPart, s2) :=
    match s1 with
    | '.' :: rest => (rest.takeWhile isDigitCh, rest.drop (rest.takeWhile isDigitCh).length)
    | _ => ([], s1)
  if intPart.isEmpty && fracPart.isEmpty then none
  else
    let expo : Int :=
      match s2 with
      | 'e' :: rest | 'E' :: rest =>
        let (eneg, rest) :=
          match rest with
          | '-' :: r => (true, r)
          | '+' :: r => (false, r)
          | _ => (false, rest)
        let eds := rest.takeWhile isDigitCh
        if eds.isEmpty then 0
        else if eneg then -(digitsToNat eds : Int) else (digitsToNat eds : Int)
      | _ => 0
    some (neg, digitsToNat (intPart ++ fracPart), fracPart.length, expo)

/-- Value phase of `parseFloat`: `±(mantissa / 10^fracLen) · 10^expo`. -/
def ratOfParts (p : Bool × Nat × Nat × Int) : ℚ :=
  let mant : ℚ := (p.2.1 : ℚ) / ((10 : ℚ) ^ p.2.2.1)
  let scaled : ℚ :=
    if 0 ≤ p.2.2.2 then mant * (10 : ℚ) ^ p.2.2.2.toNat
    else mant / (10 : ℚ) ^ (-p.2.2.2).toNat
  if p.1 then -scaled else scaled

/-- Embedding of `parseFloat`.  `none` stands for `NaN`. -/
def jsParseFloat (s : List Char) : Option ℚ :=
  (jsParseFloatParts s).map ratOfParts

/-! ## JS `Date` model

A `Date` is embedded as a calendar date: astronomical year, month index
`0..11` and day of month.  The setters `setMonth` / `setFullYear` normalize
out-of-range fields exactly as the embedded functions below do; comparison
between `Date`s (`<` on timestamps) becomes lexicographic comparison, time
of day being ignored. -/

structure JSDate where
  y : Int
  m : Fin 12
  d : Nat
deriving DecidableEq, Repr

def isLeapYear (y : Int) : Bool :=
  y % 4 = 0 && (y % 100 ≠ 0 || y % 400 = 0)

def daysInMonth (y : Int) (m : Fin 12) : Nat :=
  match (m : Nat) with
  | 0 => 31 | 1 => if isLeapYear y then 29 else 28
  | 2 => 31 | 3 => 30 | 4 => 31 | 5 => 30 | 6 => 31
  | 7 => 31 | 8 => 30 | 9 => 31 | 10 => 30 | _ => 31

/-- Build a date from a year and a raw month count (`≥ 0`), rolling surplus
months into years. -/
def ofYM (y : Int) (mr : Nat) (d : Nat) : JSDate :=
  ⟨y + mr / 12, ⟨mr % 12, Nat.mod_lt _ (by decide)⟩, d⟩

/-- Day-of-month overflow step used by the `Date` setters: a stored day
beyond the end of the month spills into the following month.  (The setters
start from a valid date, so at most one spill can occur.) -/
def fixDay (dt : JSDate) : JSDate :=
  let dim := daysInMonth dt.y dt.m
  if dt.d > dim then ofYM dt.y ((dt.m : Nat) + 1) (dt.d - dim)
  else dt

/-- Embedding of `date.setMonth(date.getMonth() + k)`. -/
def addMonths (dt : JSDate) (k : Nat) : JSDate :=
  fixDay (ofYM dt.y ((dt.m : Nat) + k) dt.d)

/-- Embedding of `date.setFullYear(date.getFullYear() + 1)`. -/
def addYear (dt : JSDate) : JSDate :=
  fixDay ⟨dt.y + 1, dt.m, dt.d⟩

/-- `addYear` iterated. -/
def addYearIter (dt : JSDate) : Nat → JSDate
  | 0 => dt
  | k + 1 => addYearIter (addYear dt) k

/-- Calendar order (the embedding of `<` on `Date` timestamps). -/
def dateLt (a b : JSDate) : Bool :=
  a.y < b.y || (a.y = b.y && ((a.m : Nat) < (b.m : Nat) ||
    ((a.m : Nat) = (b.m : Nat) && a.d < b.d)))

/-- Linear month count, used as a termination measure for the renewal
roll-forward loops. -/
def monthIdx (dt : JSDate) : Int := 12 * dt.y + (dt.m : Nat)

theorem monthIdx_le_of_dateLt {a b : JSDate} (h : dateLt a b = true) :
    monthIdx a ≤ monthIdx b := by
  unfold dateLt at h
  unfold monthIdx
  have hm : (a.m : Nat) < 12 := a.m.isLt
  have hm2 : (b.m : Nat) < 12 := b.m.isLt
  simp only [Bool.or_eq_true, Bool.and_eq_true, decide_eq_true_eq] at h
  rcases h with h | ⟨h1, h⟩
  · omega
  · rcases h with h | ⟨h2, _⟩ <;> omega

theorem monthIdx_ofYM (y : Int) (mr : Nat) (d : Nat) :
    monthIdx (ofYM y mr d) = 12 * y + mr := by
  unfold ofYM monthIdx
  simp only
  have := Nat.div_add_mod mr 12
  omega

theorem monthIdx_fixDay_ge (dt : JSDate) : monthIdx dt ≤ monthIdx (fixDay dt) := by
  unfold fixDay
  simp only []
  split
  · rw [monthIdx_ofYM]; unfold monthIdx; omega
  · exact le_refl _

theorem monthIdx_addMonths_ge (dt : JSDate) (k : Nat) :
    monthIdx dt + k ≤ monthIdx (addMonths dt k) := by
  unfold addMonths
  have h1 := monthIdx_fixDay_ge (ofYM dt.y ((dt.m : Nat) + k) dt.d)
  rw [monthIdx_ofYM] at h1
  unfold monthIdx at h1 ⊢
  omega

theorem monthIdx_addYear_ge (dt : JSDate) :
    monthIdx dt + 12 ≤ monthIdx (addYear dt) := by
  unfold addYear
  have h1 := monthIdx_fixDay_ge ⟨dt.y + 1, dt.m, dt.d⟩
  unfold monthIdx at h1 ⊢
  simp only at h1
  omega

/-- The `while (renewalDate < now) renewalDate.setFullYear(+1)` loop. -/
def rollYears (now : JSDate) (dt : JSDate) : JSDate :=
  if h : dateLt dt now then rollYears now (addYear dt)
  else dt
termination_by (monthIdx now + 1 - monthIdx dt).toNat
decreasing_by
  have h1 := monthIdx_le_of_dateLt h
  have h2 := monthIdx_addYear_ge dt
  omega

/-- The `while (renewalDate < now) renewalDate.setMonth(+k)` loop
(`k = 1` monthly, `k = 3` quarterly). -/
def rollMonths (k : Nat) (hk : 0 < k) (now : JSDate) (dt : JSDate) : JSDate :=
  if h : dateLt dt now then rollMonths k hk now (addMonths dt k)
  else dt
termination_by (monthIdx now + 1 - monthIdx dt).toNat
decreasing_by
  have h1 := monthIdx_le_of_dateLt h
  have h2 := monthIdx_addMonths_ge dt k
  omega

/-! ## `renewal-detection.ts` — frequency & renewal estimator

Transaction dates enter `detectFrequency` as `Date` values and are consumed
through `getTime()` differences; they are embedded as millisecond
timestamps (`Int`). -/

inductive Frequency where
  | monthly
  | quarterly
  | annual
  | one_time
deriving DecidableEq, Repr

def insertAsc (x : Int) : List Int → List Int
  | [] => [x]
  | y :: ys => if x ≤ y then x :: y :: ys else y :: insertAsc x ys

/-- Embedding of `[...dates].sort((a, b) => a.getTime() - b.getTime())`. -/
def sortTimes : List Int → List Int
  | [] => []
  | x :: xs => insertAsc x (sortTimes xs)

/-- The `for` loop of `detectFrequency`: accumulated
`(t[i] - t[i-1]) / (1000*60*60*24)` over consecutive pairs. -/
def gapSumDays : List Int → ℚ
  | [] => 0
  | [_] => 0
  | a :: b :: rest => ((b - a : Int) : ℚ) / 86400000 + gapSumDays (b :: rest)

/-- Embedding of `detectFrequency(dates)` (`renewal-detection.ts`). -/
def detectFrequency (dates : List Int) : Frequency :=
  if dates.length < 2 then Frequency.monthly
  else
    let sorted := sortTimes dates
    let avgDays := gapSumDays sorted / ((sorted.length : ℚ) - 1)
    if avgDays ≤ 45 then Frequency.monthly
    else if avgDays ≤ 120 then Frequency.quarterly
    else if avgDays ≤ 400 then Frequency.annual
    else Frequency.one_time

/-- Spec-side definition: the mean inter-transaction gap in days of the
chronologically sorted series. -/
def meanGapDays (dates : List Int) : ℚ :=
  let sorted := sortTimes dates
  (((sorted.zip sorted.tail).map (fun p => ((p.2 - p.1 : Int) : ℚ))).sum / 86400000) /
    ((dates.length : ℚ) - 1)

/-- Spec-side classifier: monthly ≤ 45 d, quarterly ≤ 120 d, annual ≤ 400 d,
else one-time. -/
def classifyAvgDays (g : ℚ) : Frequency :=
  if g ≤ 45 then Frequency.monthly
  else if g ≤ 120 then Frequency.quarterly
  else if g ≤ 400 then Frequency.annual
  else Frequency.one_time

/-- Embedding of `calculateRenewalDate(lastTransactionDate, frequency,
firstTransactionDate?)`, with the implicit `new Date()` made explicit as
`now`. -/
def calculateRenewalDate (now : JSDate) (lastTransactionDate : JSDate)
    (frequency : Frequency) (firstTransactionDate : Option JSDate) : JSDate :=
  match frequency with
  | Frequency.monthly => rollMonths 1 (by decide) now (addMonths lastTransactionDate 1)
  | Frequency.quarterly => rollMonths 3 (by decide) now (addMonths lastTransactionDate 3)
  | Frequency.annual =>
    match firstTransactionDate with
    | some fd => rollYears now (addMonths fd 11)
    | none => rollYears now (addMonths lastTransactionDate 11)
  | Frequency.one_time => lastTransactionDate

def mkDate (y : Int) (m d : Nat) : JSDate :=
  ⟨y, ⟨m % 12, Nat.mod_lt _ (by decide)⟩, d⟩

theorem rollYears_of_not_lt (now dt : JSDate) (h : dateLt dt now = false) :
    rollYears now dt = dt := by
  rw [rollYears]
  simp [h]

theorem addYearIter_succ_left (dt : JSDate) (k : Nat) :
    addYearIter dt (k + 1) = addYearIter (addYear dt) k := rfl

/-- `rollYears` lands on the least whole-year advance of its argument that
is not before `now`. -/
theorem rollYears_eq_iter (now : JSDate) :
    ∀ N dt, (monthIdx now + 1 - monthIdx dt).toNat ≤ N →
    ∃ k, rollYears now dt = addYearIter dt k ∧
      dateLt (addYearIter dt k) now = false ∧
      ∀ j, j < k → dateLt (addYearIter dt j) now = true := by
  intro N
  induction N with
  | zero =>
    intro dt hN
    have hlt : dateLt dt now = false := by
      by_contra hc
      have hx : dateLt dt now = true := by
        cases hb : dateLt dt now
        · exact absurd hb hc
        · rfl
      have := monthIdx_le_of_dateLt hx
      omega
    refine ⟨0, ?_, hlt, by omega⟩
    exact rollYears_of_not_lt now dt hlt
  | succ N ih =>
    intro dt hN
    cases hlt : dateLt dt now with
    | false =>
      refine ⟨0, rollYears_of_not_lt now dt hlt, hlt, by omega⟩
    | true =>
      have h1 := monthIdx_le_of_dateLt hlt
      have h2 := monthIdx_addYear_ge dt
      obtain ⟨k, hk, hstop, hmin⟩ := ih (addYear dt) (by omega)
      refine ⟨k + 1, ?_, ?_, ?_⟩
      · rw [rollYears]
        simp only [hlt, dite_true]
        rw [hk, addYearIter_succ_left]
      · rw [addYearIter_succ_left]; exact hstop
      · intro j hj
        cases j with
        | zero => exact hlt
        | succ j => rw [addYearIter_succ_left]; exact hmin j (by omega)

theorem length_insertAsc (x : Int) (l : List Int) :
    (insertAsc x l).length = l.length + 1 := by
  induction l with
  | nil => rfl
  | cons y ys ih =>
    unfold insertAsc
    split
    · rfl
    · simp only [List.length_cons, ih]

theorem length_sortTimes (l : List Int) : (sortTimes l).length = l.length := by
  induction l with
  | nil => rfl
  | cons x xs ih =>
    unfold sortTimes
    rw [length_insertAsc, ih]
    rfl

theorem gapSumDays_eq_zip (l : List Int) :
    gapSumDays l =
      ((l.zip l.tail).map (fun p => ((p.2 - p.1 : Int) : ℚ))).sum / 86400000 := by
  induction l with
  | nil => simp [gapSumDays]
  | cons a l ih =>
    cases l with
    | nil => simp [gapSumDays]
    | cons b rest =>
      have h : gapSumDays (a :: b :: rest) =
          ((b - a : Int) : ℚ) / 86400000 + gapSumDays (b :: rest) := rfl
      rw [h, ih]
      simp only [List.zip_cons_cons, List.tail_cons, List.map_cons, List.sum_cons]
      ring

/-! ## `saas-vendors.ts` — vendor pattern registry

Each registry regex is embedded as a Boolean predicate on the lowercased
text (every pattern carries the `/i` flag, so lowercasing once is
equivalent). -/

def gapHit (a b : List Char) (t : List Char) : Bool :=
  match leadsWithRem a t with
  | some r => leadsWith b (r.dropWhile isWS)
  | none => false

/-- `a\s*b` occurs in `t` (with `b` not starting in whitespace). -/
def containsGap (a b : List Char) : List Char → Bool
  | [] => gapHit a b []
  | c :: cs => gapHit a b (c :: cs) || containsGap a b cs

def gap2Hit (a b c : List Char) (t : List Char) : Bool :=
  match leadsWithRem a t with
  | some r =>
    match leadsWithRem b (r.dropWhile isWS) with
    | some r2 => leadsWith c (r2.dropWhile isWS)
    | none => false
  | none => false

/-- `a\s*b\s*c` occurs in `t`. -/
def containsGap2 (a b c : List Char) : List Char → Bool
  | [] => gap2Hit a b c []
  | ch :: cs => gap2Hit a b c (ch :: cs) || containsGap2 a b c cs

def wsAfterHit (a : List Char) (t : List Char) : Bool :=
  match leadsWithRem a t with
  | some (c :: _) => isWS c
  | _ => false

/-- `a\s` occurs in `t`: the literal followed by one whitespace character. -/
def containsThenWS (a : List Char) : List Char → Bool
  | [] => false
  | c :: cs => wsAfterHit a (c :: cs) || containsThenWS a cs

def pSub (w : String) : List Char → Bool := fun t => containsSub w.data t

def pGap (a b : String) : List Char → Bool := fun t => containsGap a.data b.data t

def pGap2 (a b c : String) : List Char → Bool :=
  fun t => containsGap2 a.data b.data c.data t

def pThenWS (a : String) : List Char → Bool := fun t => containsThenWS a.data t

def pOr (p q : List Char → Bool) : List Char → Bool := fun t => p t || q t

/-- The `SAAS_PATTERNS` table: (pattern, name, category), in source order;
first match wins. -/
def SAAS_PATTERNS : List ((List Char → Bool) × String × String) := [
  (pSub "slack", "Slack", "Communication"),
  (pSub "zoom", "Zoom", "Communication"),
  (pOr (pGap "microsoft" "365") (pOr (pGap "office" "365") (pGap "ms" "365")),
    "Microsoft 365", "Productivity"),
  (pOr (pGap "google" "workspace") (pOr (pSub "gsuite") (pGap "g" "suite")),
    "Google Workspace", "Productivity"),
  (pSub "teams", "Microsoft Teams", "Communication"),
  (pSub "discord", "Discord", "Communication"),
  (pSub "webex", "Webex", "Communication"),
  (pSub "notion", "Notion", "Productivity"),
  (pSub "asana", "Asana", "Project Management"),
  (pSub "trello", "Trello", "Project Management"),
  (pOr (pSub "monday.com") (pThenWS "monday"), "Monday.com", "Project Management"),
  (pSub "clickup", "ClickUp", "Project Management"),
  (pSub "basecamp", "Basecamp", "Project Management"),
  (pSub "jira", "Jira", "Project Management"),
  (pSub "confluence", "Confluence", "Documentation"),
  (pSub "linear", "Linear", "Project Management"),
  (pSub "figma", "Figma", "Design"),
  (pSub "canva", "Canva", "Design"),
  (pSub "adobe", "Adobe Creative Cloud", "Design"),
  (pSub "sketch", "Sketch", "Design"),
  (pSub "invision", "InVision", "Design"),
  (pSub "miro", "Miro", "Design"),
  (pSub "github", "GitHub", "DevOps"),
  (pSub "gitlab", "GitLab", "DevOps"),
  (pSub "bitbucket", "Bitbucket", "DevOps"),
  (pSub "vercel", "Vercel", "DevOps"),
  (pSub "netlify", "Netlify", "DevOps"),
  (pSub "heroku", "Heroku", "DevOps"),
  (pSub "digitalocean", "DigitalOcean", "Cloud"),
  (pSub "datadog", "Datadog", "DevOps"),
  (pSub "sentry", "Sentry", "DevOps"),
  (pSub "pagerduty", "PagerDuty", "DevOps"),
  (pOr (pSub "aws") (pGap2 "amazon" "web" "services"), "AWS", "Cloud"),
  (pSub "azure", "Microsoft Azure", "Cloud"),
  (pOr (pGap "google" "cloud") (pSub "gcp"), "Google Cloud", "Cloud"),
  (pSub "salesforce", "Salesforce", "CRM"),
  (pSub "hubspot", "HubSpot", "CRM"),
  (pSub "pipedrive", "Pipedrive", "CRM"),
  (pSub "zendesk", "Zendesk", "Support"),
  (pSub "intercom", "Intercom", "Support"),
  (pSub "freshdesk", "Freshdesk", "Support"),
  (pSub "freshworks", "Freshworks", "Support"),
  (pSub "mailchimp", "Mailchimp", "Marketing"),
  (pSub "sendgrid", "SendGrid", "Marketing"),
  (pSub "mailgun", "Mailgun", "Marketing"),
  (pGap "constant" "contact", "Constant Contact", "Marketing"),
  (pSub "hootsuite", "Hootsuite", "Marketing"),
  (pSub "buffer", "Buffer", "Marketing"),
  (pSub "semrush", "SEMrush", "Marketing"),
  (pSub "ahrefs", "Ahrefs", "Marketing"),
  (pSub "quickbooks", "QuickBooks", "Finance"),
  (pSub "xero", "Xero", "Finance"),
  (pSub "stripe", "Stripe", "Payments"),
  (pSub "square", "Square", "Payments"),
  (pSub "paypal", "PayPal", "Payments"),
  (pSub "brex", "Brex", "Finance"),
  (pSub "ramp", "Ramp", "Finance"),
  (pSub "bill.com", "Bill.com", "Finance"),
  (pSub "expensify", "Expensify", "Finance"),
  (pSub "gusto", "Gusto", "HR"),
  (pSub "rippling", "Rippling", "HR"),
  (pSub "workday", "Workday", "HR"),
  (pOr (pSub "bamboohr") (pGap "bamboo" "hr"), "BambooHR", "HR"),
  (pSub "deel", "Deel", "HR"),
  (pOr (pSub "1password") (pSub "onepassword"), "1Password", "Security"),
  (pSub "lastpass", "LastPass", "Security"),
  (pSub "okta", "Okta", "Security"),
  (pSub "auth0", "Auth0", "Security"),
  (pSub "dropbox", "Dropbox", "Storage"),
  (pOr (pSub "box.com") (pThenWS "box"), "Box", "Storage"),
  (pGap "google" "drive", "Google Drive", "Storage"),
  (pSub "mixpanel", "Mixpanel", "Analytics"),
  (pSub "amplitude", "Amplitude", "Analytics"),
  (pSub "segment", "Segment", "Analytics"),
  (pSub "heap", "Heap", "Analytics"),
  (pSub "hotjar", "Hotjar", "Analytics"),
  (pSub "fullstory", "FullStory", "Analytics"),
  (pSub "shopify", "Shopify", "E-commerce"),
  (pSub "bigcommerce", "BigCommerce", "E-commerce"),
  (pSub "woocommerce", "WooCommerce", "E-commerce"),
  (pSub "twilio", "Twilio", "APIs"),
  (pSub "plivo", "Plivo", "APIs"),
  (pSub "openai", "OpenAI", "AI"),
  (pSub "anthropic", "Anthropic", "AI"),
  (pSub "cohere", "Cohere", "AI")]

/-- Embedding of `detectSaaSVendor(description)`: first matching pattern
wins, returning its (name, category). -/
def detectSaaSVendor (description : String) : Option (String × String) :=
  let t := jsLower description.data
  (SAAS_PATTERNS.find? (fun p => p.1 t)).map (fun p => (p.2.1, p.2.2))

/-- The `saasIndicators` heuristics of `isSaaSSubscription`. -/
def saasIndicators : List (List Char → Bool) := [
  pSub "subscription", pSub "monthly", pSub "annual", pSub "recurring",
  pSub "license", pSub "saas", pSub "software", pSub ".com", pSub ".io",
  pSub "cloud", pGap "pro" "plan", pSub "enterprise", pGap "team" "plan",
  pGap "business" "plan"]

/-- Embedding of `isSaaSSubscription(description)`. -/
def isSaaSSubscription (description : String) : Bool :=
  (detectSaaSVendor description).isSome ||
    saasIndicators.any (fun p => p (jsLower description.data))

/-- Embedding of `normalizeVendorName(name)`: lowercase, trim, strip
characters outside `\w` and `\s`, collapse whitespace runs to one space. -/
def normalizeVendorName (name : String) : String :=
  ⟨collapseWS (keepWordWS (jsTrim (jsLower name.data)))⟩

/-- The identity key used by the email channel's vendor lookup/create in
`gmail.ts`: `vendorName.toLowerCase().replace(/\s+/g, '')`. -/
def emailVendorKey (name : String) : String :=
  ⟨removeWS (jsLower name.data)⟩

/-! ## `csv-parser.ts` — CSV transaction normalizer

`Papa.parse` is an external library (the spec treats CSV transport as a
collaborator); the embedding starts from its output: the resolved header
list, its error list, and each data row as an association list of
header-name / cell pairs. -/

def prevYM (y : Int) (m : Fin 12) : Int × Fin 12 :=
  if h : (m : Nat) = 0 then (y - 1, ⟨11, by decide⟩)
  else (y, ⟨(m : Nat) - 1, by omega⟩)

def nextYM (y : Int) (m : Fin 12) : Int × Fin 12 :=
  if (m : Nat) = 11 then (y + 1, ⟨0, by decide⟩)
  else (y, ⟨((m : Nat) + 1) % 12, Nat.mod_lt _ (by decide)⟩)

/-- Day normalization of the `new Date(year, monthIndex, day)` constructor:
the day count is folded into the calendar month by month.  The fuel bound
covers every day value the code's 1–2 digit date fields can produce. -/
def dayFix (fuel : Nat) (y : Int) (m : Fin 12) (d : Int) : JSDate :=
  match fuel with
  | 0 => ⟨y, m, d.toNat⟩
  | f + 1 =>
    if d < 1 then
      let p := prevYM y m
      dayFix f p.1 p.2 (d + daysInMonth p.1 p.2)
    else if d > daysInMonth y m then
      let p := nextYM y m
      dayFix f p.1 p.2 (d - daysInMonth y m)
    else ⟨y, m, d.toNat⟩

/-- Embedding of the `new Date(year, monthIndex, day)` constructor with its
out-of-range normalization. -/
def jsDateCtor (y mIdx day : Int) : JSDate :=
  let ym : Int := y + Int.fdiv mIdx 12
  let mm : Nat := (Int.emod mIdx 12).toNat
  dayFix 8 ym ⟨mm % 12, Nat.mod_lt _ (by decide)⟩ day

/-- Embedding of `new Date(string)` for the ISO `YYYY-MM-DD` date-only
format, the format this code base feeds it (extractor contract and
`toISOString` output); out-of-range ISO components yield an invalid date
(`none`). -/
def jsNewDateISO (s : String) : Option JSDate :=
  match s.data with
  | [y1, y2, y3, y4, '-', mo1, mo2, '-', d1, d2] =>
    if isDigitCh y1 && isDigitCh y2 && isDigitCh y3 && isDigitCh y4 &&
        isDigitCh mo1 && isDigitCh mo2 && isDigitCh d1 && isDigitCh d2 then
      let y : Int := digitsToNat [y1, y2, y3, y4]
      let mo := digitsToNat [mo1, mo2]
      let da := digitsToNat [d1, d2]
      if h : 1 ≤ mo ∧ mo ≤ 12 then
        let mf : Fin 12 := ⟨mo - 1, by omega⟩
        if 1 ≤ da ∧ da ≤ daysInMonth y mf then some ⟨y, mf, da⟩ else none
      else none
    else none
  | _ => none

/-- The anchored `^(\d{1,2})\/(\d{1,2})\/(\d{4})$` match of `parseDate`. -/
def usDateMatch (cs : List Char) : Option (Nat × Nat × Nat) :=
  let p1 := cs.takeWhile isDigitCh
  if p1.length = 0 || p1.length > 2 then none
  else
    match cs.drop p1.length with
    | '/' :: r1 =>
      let p2 := r1.takeWhile isDigitCh
      if p2.length = 0 || p2.length > 2 then none
      else
        match r1.drop p2.length with
        | '/' :: r2 =>
          let p3 := r2.takeWhile isDigitCh
          if p3.length = 4 && (r2.drop 4).isEmpty then
            some (digitsToNat p1, digitsToNat p2, digitsToNat p3)
          else none
        | _ => none
    | _ => none

/-- Embedding of `parseDate(value)` from `csv-parser.ts` (an absent cell is
`none`; the code's second, identical `DD/MM/YYYY` regex branch is
unreachable and therefore not duplicated). -/
def parseDateCSV (value : Option String) : Option JSDate :=
  match value with
  | none => none
  | some s =>
    if s = "" then none
    else
      match jsNewDateISO s with
      | some d => some d
      | none =>
        match usDateMatch s.data with
        | some (mo, da, yr) => some (jsDateCtor yr ((mo : Int) - 1) da)
        | none => none

/-- String-cleaning phase of `parseAmount(value)`: strip currency symbols,
commas and whitespace, de-parenthesize the accounting format, strip one
leading minus sign, then scan the float literal. -/
def parseAmountParts (value : String) : Option (Bool × Nat × Nat × Int) :=
  let cleaned := value.data.filter
    (fun c => !(c = '$' || c = '€' || c = '£' || c = '¥' || c = ',' || isWS c))
  let cleaned2 :=
    if cleaned.head? = some '(' && cleaned.getLast? = some ')' then
      (cleaned.drop 1).dropLast
    else cleaned
  let cleaned3 :=
    match cleaned2 with
    | '-' :: rest => rest
    | _ => cleaned2
  jsParseFloatParts cleaned3

/-- Embedding of `parseAmount(value)` for string cells (the `number` branch
is unreachable from `parseCSV`, whose rows hold strings); unparseable input
(`NaN`) becomes `0`. -/
def parseAmount (value : String) : ℚ :=
  match parseAmountParts value with
  | none => 0
  | some p => ratOfParts p

/-- Position-wise match for step 2 of `extractVendorName`: some keyword of
`kws` begins here (case-insensitively). -/
def kwHitsAt (kws : List (List Char)) (t : List Char) : Bool :=
  kws.any (fun k => leadsWithCI k t)

/-- Index of the first position of `t` where `hit` fires. -/
def firstHitIdx (hit : List Char → Bool) : List Char → Option Nat
  | [] => none
  | c :: cs =>
    if hit (c :: cs) then some 0
    else (firstHitIdx hit cs).map (· + 1)

/-- Truncate `t` at the leftmost match of `\s*<hit>.*$`: cut at the first
position where `hit` fires, extended left over the whitespace run
immediately before it. -/
def cutAtHit (hit : List Char → Bool) (t : List Char) : List Char :=
  match firstHitIdx hit t with
  | none => t
  | some j =>
    let before := t.take j
    (before.reverse.dropWhile isWS).reverse

/-- Step-3 hit: `\d{2}\/\d{2}` begins here. -/
def ddSlashHit (t : List Char) : Bool :=
  match t with
  | a :: b :: '/' :: c :: d :: _ =>
    isDigitCh a && isDigitCh b && isDigitCh c && isDigitCh d
  | _ => false

/-- Step-4 hit: `#\d+` begins here. -/
def refNumHit (t : List Char) : Bool :=
  match t with
  | '#' :: c :: _ => isDigitCh c
  | _ => false

/-- Step-5 hit: `\*+\d+` begins here (a run of asterisks followed by a
digit). -/
def starNumHit (t : List Char) : Bool :=
  match t with
  | '*' :: rest =>
    match rest.dropWhile (fun c => c = '*') with
    | c :: _ => isDigitCh c
    | [] => false
  | _ => false

def splitChar (sep : Char) : List Char → List (List Char)
  | [] => [[]]
  | c :: cs =>
    match splitChar sep cs with
    | [] => if c = sep then [[], []] else [[c]]
    | h :: t => if c = sep then [] :: h :: t else (c :: h) :: t

def joinChar (sep : Char) (ws : List (List Char)) : List Char :=
  match ws with
  | [] => []
  | [w] => w
  | w :: rest => w ++ sep :: joinChar sep rest

/-- `word.charAt(0).toUpperCase() + word.slice(1).toLowerCase()`. -/
def capWord (w : List Char) : List Char :=
  match w with
  | [] => []
  | c :: rest => jsUpperChar c :: jsLower rest

def vendorStopKws : List (List Char) :=
  [("recurring" : String).data, ("subscription" : String).data,
   ("monthly" : String).data, ("annual" : String).data,
   ("payment" : String).data]

def vendorLeadKws : List (List Char) :=
  [("purchase" : String).data, ("payment" : String).data,
   ("debit" : String).data, ("withdrawal" : String).data,
   ("ach" : String).data, ("wire" : String).data, ("eft" : String).data]

/-- Embedding of `extractVendorName(description, explicitVendor?)`. -/
def extractVendorName (description : String) (explicitVendor : Option String) : String :=
  match explicitVendor with
  | some v =>
    if jsTrim v.data ≠ [] then ⟨jsTrim v.data⟩
    else extractVendorNameNoExplicit description
  | none => extractVendorNameNoExplicit description
where
  extractVendorNameNoExplicit (description : String) : String :=
    match detectSaaSVendor description with
    | some (n, _) => n
    | none =>
      let cs := description.data
      let cs := -- ^(purchase|payment|...)\s* — anchored, first alternative wins
        match vendorLeadKws.findSome? (fun k => leadsWithRemCI k cs) with
        | some rest => rest.dropWhile isWS
        | none => cs
      let cs := cutAtHit (kwHitsAt vendorStopKws) cs
      let cs := cutAtHit ddSlashHit cs
      let cs := cutAtHit refNumHit cs
      let cs := cutAtHit starNumHit cs
      let cs := jsTrim cs
      let vendor := joinChar ' ' ((splitChar ' ' cs).map capWord)
      if vendor = [] then "Unknown Vendor" else ⟨vendor⟩

def DATE_COLUMNS : List String :=
  ["date", "transaction date", "trans date", "posted date", "txn date"]

def DESCRIPTION_COLUMNS : List String :=
  ["description", "memo", "name", "payee", "merchant", "trans description"]

def AMOUNT_COLUMNS : List String :=
  ["amount", "debit", "withdrawal", "payment", "charge"]

def VENDOR_COLUMNS : List String :=
  ["vendor", "payee", "merchant", "name"]

def CATEGORY_COLUMNS : List String :=
  ["category", "type", "class"]

/-- Embedding of `findColumn(headers, candidates)`: exact case-insensitive
match over all candidates first, then substring match; returns the original
header. -/
def findColumn (headers : List String) (candidates : List String) : Option String :=
  let pairs := headers.map (fun h => (jsLowerStr (jsTrimStr h), h))
  match candidates.findSome? (fun c => (pairs.find? (fun p => p.1 = c)).map (fun p => p.2)) with
  | some h => some h
  | none =>
    candidates.findSome? (fun c => (pairs.find? (fun p => containsStr p.1 c)).map (fun p => p.2))

structure ParsedTransaction where
  date : JSDate
  vendorName : String
  normalizedVendorName : String
  amount : ℚ
  rawDescription : String
  isSaaS : Bool
  category : Option String
deriving DecidableEq, Repr

structure CSVParseResult where
  transactions : List ParsedTransaction
  errors : List String
  totalRows : Nat
  saasCount : Nat
deriving DecidableEq, Repr

/-- A data row as delivered by `Papa.parse` with `header: true`: cell
lookup by header name, `none` for an absent key (JS `undefined`). -/
def rowGet (row : List (String × String)) (k : String) : Option String :=
  (row.find? (fun p => p.1 = k)).map (fun p => p.2)

/-- The row loop of `parseCSV`: `i` is the current row index (messages
mention `i + 2`, one for zero-indexing and one for the header line). -/
def processRows (dc : String) (descCol : Option String) (ac : String)
    (vendorCol categoryCol : Option String) :
    Nat → List (List (String × String)) → List ParsedTransaction × List String
  | _, [] => ([], [])
  | i, row :: rest =>
    let next := processRows dc descCol ac vendorCol categoryCol (i + 1) rest
    let dateStr := rowGet row dc
    let description : String :=
      match descCol with
      | some c => (rowGet row c).getD ""
      | none => ""
    let amountStr := rowGet row ac
    let explicitVendor := vendorCol.bind (rowGet row)
    let category := categoryCol.bind (rowGet row)
    match parseDateCSV dateStr with
    | none =>
      let shown := dateStr.getD "undefined"
      (next.1, (s!"Row {i + 2}: Invalid date \x22{shown}\x22") :: next.2)
    | some date =>
      match amountStr with
      | none =>
        -- `parseAmount(undefined)` throws; the row-level catch records it
        (next.1, (s!"Row {i + 2}: Cannot read properties of undefined (reading 'replace')") :: next.2)
      | some amtStr =>
        let amount := parseAmount amtStr
        if amount = 0 then next
        else
          let vendorName := extractVendorName description explicitVendor
          let saasVendor :=
            match detectSaaSVendor description with
            | some v => some v
            | none => detectSaaSVendor vendorName
          let cat : Option String :=
            match saasVendor with
            | some (_, c) => some c
            | none => category
          let tx : ParsedTransaction :=
            ⟨date, vendorName, normalizeVendorName vendorName, amount, description,
             isSaaSSubscription description || isSaaSSubscription vendorName, cat⟩
          (tx :: next.1, next.2)

/-- Embedding of `parseCSV(csvContent)` downstream of `Papa.parse`:
`headers` is `result.meta.fields`, `papaErrors` the formatted Papa error
lines, `rows` the parsed records. -/
def parseCSV (headers : List String) (papaErrors : List String)
    (rows : List (List (String × String))) : CSVParseResult :=
  match findColumn headers DATE_COLUMNS with
  | none =>
    ⟨[], papaErrors ++ ["Could not find date column"], rows.length, 0⟩
  | some dc =>
    let descCol := findColumn headers DESCRIPTION_COLUMNS
    let vendorCol := findColumn headers VENDOR_COLUMNS
    if descCol = none ∧ vendorCol = none then
      ⟨[], papaErrors ++ ["Could not find description or vendor column"], rows.length, 0⟩
    else
      match findColumn headers AMOUNT_COLUMNS with
      | none =>
        ⟨[], papaErrors ++ ["Could not find amount column"], rows.length, 0⟩
      | some ac =>
        let categoryCol := findColumn headers CATEGORY_COLUMNS
        let step := processRows dc descCol ac vendorCol categoryCol 0 rows
        ⟨step.1, (papaErrors ++ step.2).take 10, rows.length,
         (step.1.filter (fun t => t.isSaaS)).length⟩

/-! ## `subscription-extraction.ts` — Stage 2 extraction

The LLM call is an external collaborator; the deterministic regex fallback
`extractWithRegex` is embedded in full below. -/

inductive BillingCycle where
  | monthly
  | yearly
deriving DecidableEq, Repr

inductive Confidence where
  | low
  | medium
  | high
deriving DecidableEq, Repr

structure ExtractedSub where
  vendor_name : String
  vendor_domain : Option String
  plan : Option String
  seats : Option Nat
  billing_cycle : Option BillingCycle
  renewal_date : Option String
  amount : Option ℚ
  currency : Option String
  confidence : Confidence
deriving DecidableEq, Repr

/-- JS truthiness of a nullable string. -/
def truthyStr : Option String → Bool
  | some s => s ≠ ""
  | none => false

/-- JS truthiness of a nullable count. -/
def truthyNat : Option Nat → Bool
  | some n => n ≠ 0
  | none => false

/-- JS truthiness of a nullable number (`none` covers both `null` and
`NaN`, which are equally falsy and equally nullified downstream). -/
def truthyQ : Option ℚ → Bool
  | some q => q ≠ 0
  | none => false

/-- `/^(\w+)\s+(?:Billing|Subscription|Plan|Renewal)/i` applied to the
subject; the captured first word keeps its original case. -/
def vendorFromSubject (subject : String) : Option String :=
  let cs := subject.data
  let w := cs.takeWhile isWordCh
  if w.isEmpty then none
  else
    let r := cs.drop w.length
    let ws := r.takeWhile isWS
    if ws.isEmpty then none
    else
      let r2 := r.drop ws.length
      if leadsWithCI ("billing" : String).data r2 ||
          leadsWithCI ("subscription" : String).data r2 ||
          leadsWithCI ("plan" : String).data r2 ||
          leadsWithCI ("renewal" : String).data r2 then
        some ⟨w⟩
      else none

/-- `/Plan[:\s]+([A-Za-z0-9]+(?:\s+[A-Za-z0-9]+)?)\s+Seats/i` at one
position: the optional second word is tried greedily first, exactly as the
regex engine backtracks. -/
def planSeatsAt (t : List Char) : Option (List Char) :=
  match leadsWithRemCI ("plan" : String).data t with
  | none => none
  | some r0 =>
    let sep := r0.takeWhile (fun c => c = ':' || isWS c)
    if sep.isEmpty then none
    else
      let r1 := r0.drop sep.length
      let a1 := r1.takeWhile isAlnumCh
      if a1.isEmpty then none
      else
        let r2 := r1.drop a1.length
        let ws1 := r2.takeWhile isWS
        if ws1.isEmpty then none
        else
          let r3 := r2.drop ws1.length
          let a2 := r3.takeWhile isAlnumCh
          let withSecond : Option (List Char) :=
            if a2.isEmpty then none
            else
              let r4 := r3.drop a2.length
              let ws2 := r4.takeWhile isWS
              if ws2.isEmpty then none
              else if leadsWithCI ("seats" : String).data (r4.drop ws2.length) then
                some (a1 ++ ws1 ++ a2)
              else none
          match withSecond with
          | some cap => some cap
          | none =>
            if leadsWithCI ("seats" : String).data r3 then some a1 else none

/-- Shared search for the two lazy-capture plan patterns
`<kw><sepClass>+([A-Za-z0-9\s]+?)\s+<stop>`: the separator run is tried
greedily (longest first), the capture lazily (shortest first). -/
def lazyCapAt (kw : List Char) (sepIsColon : Bool) (stops : List (List Char))
    (t : List Char) : Option (List Char) :=
  match leadsWithRemCI kw t with
  | none => none
  | some r0 =>
    let sepMax := (r0.takeWhile (fun c => (sepIsColon && c = ':') || isWS c)).length
    if sepMax = 0 then none
    else
      (List.range sepMax).findSome? (fun dk =>
        let r1 := r0.drop (sepMax - dk)
        (List.range r1.length).findSome? (fun cl0 =>
          let cap := r1.take (cl0 + 1)
          if cap.all (fun c => isAlnumCh c || isWS c) then
            let r2 := r1.drop (cl0 + 1)
            let ws := r2.takeWhile isWS
            if ws.isEmpty then none
            else if stops.any (fun s => leadsWithCI s (r2.drop ws.length)) then some cap
            else none
          else none))

/-- The three plan patterns of `extractWithRegex`, in priority order, each
searched leftmost over the body; the captured group is trimmed. -/
def planFromBody (body : List Char) : Option String :=
  match scanFirst planSeatsAt body with
  | some cap => some ⟨jsTrim cap⟩
  | none =>
    match scanFirst (lazyCapAt ("plan" : String).data true [("billing" : String).data]) body with
    | some cap => some ⟨jsTrim cap⟩
    | none =>
      match scanFirst (lazyCapAt ("your" : String).data false
          [("subscription" : String).data, ("plan" : String).data]) body with
      | some cap => some ⟨jsTrim cap⟩
      | none => none

/-- `/Seats[:\s]+(\d+)/i` at one position. -/
def seatsAt (t : List Char) : Option Nat :=
  match leadsWithRemCI ("seats" : String).data t with
  | none => none
  | some r0 =>
    let sep := r0.takeWhile (fun c => c = ':' || isWS c)
    if sep.isEmpty then none
    else
      let ds := (r0.drop sep.length).takeWhile isDigitCh
      if ds.isEmpty then none else some (digitsToNat ds)

def seatsFrom (t : List Char) : Option Nat := scanFirst seatsAt t

def hasMonthlyTok (t : List Char) : Bool :=
  let lt := jsLower t
  containsSub ("monthly" : String).data lt ||
    containsSub ("per month" : String).data lt ||
    containsSub ("/month" : String).data lt

def hasYearlyTok (t : List Char) : Bool :=
  let lt := jsLower t
  containsSub ("yearly" : String).data lt ||
    containsSub ("annual" : String).data lt ||
    containsSub ("per year" : String).data lt ||
    containsSub ("/year" : String).data lt

/-- The billing-cycle branch of `extractWithRegex`: the monthly test runs
first, `else if` yearly. -/
def regexBillingCycle (t : List Char) : Option BillingCycle :=
  if hasMonthlyTok t then some BillingCycle.monthly
  else if hasYearlyTok t then some BillingCycle.yearly
  else none

/-- The shared date-capture group `([A-Za-z]+\s+\d{1,2},?\s+\d{4})`,
matched at the head of `t`; returns the captured characters. -/
def dateCapHere (t : List Char) : Option (List Char) :=
  let w := t.takeWhile isLetterCh
  if w.isEmpty then none
  else
    let r := t.drop w.length
    let ws := r.takeWhile isWS
    if ws.isEmpty then none
    else
      let r1 := r.drop ws.length
      let ds := r1.takeWhile isDigitCh
      if ds.isEmpty || ds.length > 2 then none
      else
        let r2 := r1.drop ds.length
        let (comma, r3) :=
          match r2 with
          | ',' :: rest => ([','], rest)
          | _ => ([], r2)
        let ws2 := r3.takeWhile isWS
        if ws2.isEmpty then none
        else
          let ys := (r3.drop ws2.length).takeWhile isDigitCh
          if ys.length < 4 then none
          else some (w ++ ws ++ ds ++ comma ++ ws2 ++ ys.take 4)

/-- Separator `[:\s]+` followed by the date capture. -/
def sepThenDateCap (r : List Char) : Option (List Char) :=
  let sep := r.takeWhile (fun c => c = ':' || isWS c)
  if sep.isEmpty then none else dateCapHere (r.drop sep.length)

/-- `/Renewal\s+date[:\s]+(…)/i` at one position. -/
def renewalDateKwAt (t : List Char) : Option (List Char) :=
  match leadsWithRemCI ("renewal" : String).data t with
  | none => none
  | some r0 =>
    let ws := r0.takeWhile isWS
    if ws.isEmpty then none
    else
      match leadsWithRemCI ("date" : String).data (r0.drop ws.length) with
      | none => none
      | some r1 => sepThenDateCap r1

/-- `\s+(?:on\s+)?(…)` — the tail of the `renew…` pattern. -/
def wsOnDateCap (r : List Char) : Option (List Char) :=
  let ws := r.takeWhile isWS
  if ws.isEmpty then none
  else
    let r1 := r.drop ws.length
    let withOn : Option (List Char) :=
      match leadsWithRemCI ("on" : String).data r1 with
      | none => none
      | some r2 =>
        let ws2 := r2.takeWhile isWS
        if ws2.isEmpty then none else dateCapHere (r2.drop ws2.length)
    match withOn with
    | some cap => some cap
    | none => dateCapHere r1

/-- `/renew(?:s|ing)?\s+(?:on\s+)?(…)/i` at one position: the optional
suffix alternatives are tried in the engine's order (`s`, `ing`, empty). -/
def renewOnAt (t : List Char) : Option (List Char) :=
  match leadsWithRemCI ("renew" : String).data t with
  | none => none
  | some r0 =>
    let tryS :=
      match leadsWithRemCI ("s" : String).data r0 with
      | some r => wsOnDateCap r
      | none => none
    match tryS with
    | some cap => some cap
    | none =>
      let tryIng :=
        match leadsWithRemCI ("ing" : String).data r0 with
        | some r => wsOnDateCap r
        | none => none
      match tryIng with
      | some cap => some cap
      | none => wsOnDateCap r0

/-- `/date[:\s]+(…)/i` at one position. -/
def dateKwAt (t : List Char) : Option (List Char) :=
  match leadsWithRemCI ("date" : String).data t with
  | none => none
  | some r0 => sepThenDateCap r0

def monthNamesTable : List (String × Fin 12) :=
  [("january", ⟨0, by decide⟩), ("february", ⟨1, by decide⟩),
   ("march", ⟨2, by decide⟩), ("april", ⟨3, by decide⟩),
   ("may", ⟨4, by decide⟩), ("june", ⟨5, by decide⟩),
   ("july", ⟨6, by decide⟩), ("august", ⟨7, by decide⟩),
   ("september", ⟨8, by decide⟩), ("october", ⟨9, by decide⟩),
   ("november", ⟨10, by decide⟩), ("december", ⟨11, by decide⟩)]

/-- The tail `\s+\d{1,2},?\s+\d{4}` after the month-name alternation of the
fourth date pattern. -/
def dateTailHere (r : List Char) : Bool :=
  let ws := r.takeWhile isWS
  if ws.isEmpty then false
  else
    let r1 := r.drop ws.length
    let ds := r1.takeWhile isDigitCh
    if ds.isEmpty || ds.length > 2 then false
    else
      let r2 := r1.drop ds.length
      let r3 :=
        match r2 with
        | ',' :: rest => rest
        | _ => r2
      let ws2 := r3.takeWhile isWS
      if ws2.isEmpty then false
      else 4 ≤ ((r3.drop ws2.length).takeWhile isDigitCh).length

/-- `/(January|…|December)\s+\d{1,2},?\s+\d{4}/i` at one position.  The
alternation is the pattern's only group, so `match[1]` — the string the
code then feeds to `new Date` — is the bare month name. -/
def monthAltAt (t : List Char) : Option (List Char) :=
  monthNamesTable.findSome? (fun mn =>
    match leadsWithRemCI mn.1.data t with
    | some r => if dateTailHere r then some (t.take mn.1.length) else none
    | none => none)

/-- Month-name lookup of the `new Date(string)` legacy parser: a
case-insensitive month-name head of at least three characters. -/
def monthFromWord (w : List Char) : Option (Fin 12) :=
  if w.length < 3 then none
  else (monthNamesTable.find? (fun mn => leadsWith (jsLower w) mn.1.data)).map (fun mn => mn.2)

/-- Embedding of `new Date(string)` for the legacy `Month D[,] YYYY`
texts the date regexes capture: day overflow rolls into the next month,
like the constructor; a day outside `1..31` or an unknown month word is an
invalid date. -/
def jsParseMonthDate (cs : List Char) : Option JSDate :=
  let w := cs.takeWhile isLetterCh
  match monthFromWord w with
  | none => none
  | some mf =>
    let r := (cs.drop w.length).dropWhile isWS
    let ds := r.takeWhile isDigitCh
    if ds.isEmpty || ds.length > 2 then none
    else
      let day := digitsToNat ds
      if day < 1 || day > 31 then none
      else
        let r2 :=
          match r.drop ds.length with
          | ',' :: rest => rest
          | other => other
        let ys := (r2.dropWhile isWS).takeWhile isDigitCh
        if ys.length ≠ 4 then none
        else some (dayFix 8 (digitsToNat ys) mf day)

def digitChar (n : Nat) : Char :=
  match n with
  | 0 => '0' | 1 => '1' | 2 => '2' | 3 => '3' | 4 => '4'
  | 5 => '5' | 6 => '6' | 7 => '7' | 8 => '8' | _ => '9'

def pad2 (n : Nat) : List Char := [digitChar (n / 10 % 10), digitChar (n % 10)]

def pad4 (n : Nat) : List Char :=
  [digitChar (n / 1000 % 10), digitChar (n / 100 % 10),
   digitChar (n / 10 % 10), digitChar (n % 10)]

/-- `date.toISOString().split('T')[0]` for the four-digit years these
parsers produce (server clock in UTC, so the calendar date is unchanged). -/
def formatISODate (d : JSDate) : String :=
  ⟨pad4 d.y.toNat ++ '-' :: pad2 ((d.m : Nat) + 1) ++ '-' :: pad2 d.d⟩

/-- The renewal-date loop of `extractWithRegex`: four patterns in order;
each contributes only its leftmost match, and only if that match parses to
a valid date. -/
def renewalFromBody (body : List Char) : Option String :=
  let step := fun (pat : List Char → Option (List Char)) =>
    ((scanFirst pat body).bind jsParseMonthDate).map formatISODate
  match step renewalDateKwAt with
  | some s => some s
  | none =>
    match step renewOnAt with
    | some s => some s
    | none =>
      match step dateKwAt with
      | some s => some s
      | none => step monthAltAt

/-- The numeric capture `([\d,]+\.?\d*)` at the head of `r`; returns the
captured characters and the remainder. -/
def numCapFrom (r : List Char) : Option (List Char × List Char) :=
  let p1 := r.takeWhile (fun c => isDigitCh c || c = ',')
  if p1.isEmpty then none
  else
    let r1 := r.drop p1.length
    match r1 with
    | '.' :: rest =>
      let ds := rest.takeWhile isDigitCh
      some (p1 ++ '.' :: ds, rest.drop ds.length)
    | _ => some (p1, r1)

/-- `\s*(<currency>)` at the head of `r`; returns the captured original
characters. -/
def curCapFrom (allowed : List String) (r : List Char) : Option (List Char) :=
  let r1 := r.dropWhile isWS
  allowed.findSome? (fun cur =>
    if leadsWithCI cur.data r1 then some (r1.take cur.length) else none)

/-- `/Amount[:\s]+\$?([\d,]+\.?\d*)\s*(USD|EUR|GBP|INR)?/i` at one
position. -/
def amountKwAt (t : List Char) : Option (List Char × Option (List Char)) :=
  match leadsWithRemCI ("amount" : String).data t with
  | none => none
  | some r0 =>
    let sep := r0.takeWhile (fun c => c = ':' || isWS c)
    if sep.isEmpty then none
    else
      let r1 :=
        match r0.drop sep.length with
        | '$' :: rest => rest
        | other => other
      match numCapFrom r1 with
      | none => none
      | some (cap, rem) =>
        some (cap, curCapFrom ["usd", "eur", "gbp", "inr"] rem)

/-- `/\$([\d,]+\.?\d*)\s*(USD)?/i` at one position. -/
def dollarAt (t : List Char) : Option (List Char × Option (List Char)) :=
  match t with
  | '$' :: r =>
    match numCapFrom r with
    | none => none
    | some (cap, rem) => some (cap, curCapFrom ["usd"] rem)
  | _ => none

/-- `/([\d,]+\.?\d*)\s*(USD|EUR|GBP|INR)/i` at one position (currency
required). -/
def numCurAt (t : List Char) : Option (List Char × Option (List Char)) :=
  match numCapFrom t with
  | none => none
  | some (cap, rem) =>
    match curCapFrom ["usd", "eur", "gbp", "inr"] rem with
    | some cur => some (cap, some cur)
    | none => none

/-- `match[1].replace(',', '')`: only the first comma is removed. -/
def replaceFirstComma : List Char → List Char
  | [] => []
  | ',' :: rest => rest
  | c :: rest => c :: replaceFirstComma rest

/-- The amount loop of `extractWithRegex`: three patterns in order; the
parsed amount (`none` for `NaN`) and `match[2]?.toUpperCase() || 'USD'`. -/
def amountFromText (t : List Char) : Option (Option ℚ × String) :=
  let fromCap := fun (p : List Char × Option (List Char)) =>
    (jsParseFloat (replaceFirstComma p.1),
     (p.2.map (fun c => jsUpperStr ⟨c⟩)).getD "USD")
  match scanFirst amountKwAt t with
  | some p => some (fromCap p)
  | none =>
    match scanFirst dollarAt t with
    | some p => some (fromCap p)
    | none => (scanFirst numCurAt t).map fromCap

/-- Embedding of `extractWithRegex(subject, body)`. -/
def extractWithRegex (subject body : Option String) : Option ExtractedSub :=
  let text := (subject.getD "") ++ " " ++ (body.getD "")
  let tcs := text.data
  let bodyText := (body.getD "").data
  let vendorName : Option String := subject.bind vendorFromSubject
  let plan : Option String := planFromBody bodyText
  let seats : Option Nat := seatsFrom tcs
  let billingCycle := regexBillingCycle tcs
  let renewalDate : Option String := renewalFromBody bodyText
  let amountCur := amountFromText tcs
  let amount : Option ℚ := amountCur.bind (fun p => p.1)
  let currency : Option String := amountCur.map (fun p => p.2)
  if !truthyStr vendorName && !truthyStr plan && !truthyNat seats &&
      !truthyQ amount && !truthyStr renewalDate then
    none
  else
    some
      { vendor_name := if truthyStr vendorName then vendorName.getD "" else "Unknown"
        vendor_domain := none
        plan := plan
        seats := seats
        billing_cycle := billingCycle
        renewal_date := renewalDate
        amount := amount
        currency := some (currency.getD "USD")
        confidence :=
          if truthyQ amount && truthyStr renewalDate then Confidence.medium
          else Confidence.low }

/-- The `KNOWN_SAAS_DOMAINS` table of `subscription-extraction.ts`:
`(domain, name, category)` in insertion order. -/
def KNOWN_SAAS_DOMAINS : List (String × String × String) := [
  ("slack.com", "Slack", "Communication"),
  ("notion.so", "Notion", "Productivity"),
  ("github.com", "GitHub", "DevOps"),
  ("figma.com", "Figma", "Design"),
  ("zoom.us", "Zoom", "Communication"),
  ("atlassian.com", "Atlassian", "Project Management"),
  ("jira.com", "Jira", "Project Management"),
  ("trello.com", "Trello", "Project Management"),
  ("dropbox.com", "Dropbox", "Storage"),
  ("hubspot.com", "HubSpot", "CRM"),
  ("salesforce.com", "Salesforce", "CRM"),
  ("intercom.io", "Intercom", "Customer Support"),
  ("zendesk.com", "Zendesk", "Customer Support"),
  ("mailchimp.com", "Mailchimp", "Marketing"),
  ("sendgrid.com", "SendGrid", "Email"),
  ("stripe.com", "Stripe", "Payments"),
  ("aws.amazon.com", "AWS", "Cloud Infrastructure"),
  ("vercel.com", "Vercel", "DevOps"),
  ("heroku.com", "Heroku", "Cloud Infrastructure"),
  ("mongodb.com", "MongoDB", "Database"),
  ("datadog.com", "Datadog", "Monitoring"),
  ("sentry.io", "Sentry", "Monitoring"),
  ("auth0.com", "Auth0", "Security"),
  ("okta.com", "Okta", "Security"),
  ("linear.app", "Linear", "Project Management"),
  ("asana.com", "Asana", "Project Management"),
  ("monday.com", "Monday.com", "Project Management"),
  ("airtable.com", "Airtable", "Database"),
  ("canva.com", "Canva", "Design"),
  ("miro.com", "Miro", "Collaboration"),
  ("loom.com", "Loom", "Communication"),
  ("calendly.com", "Calendly", "Scheduling"),
  ("openai.com", "OpenAI", "AI"),
  ("anthropic.com", "Anthropic", "AI")]

/-- `charAt(0).toUpperCase() + slice(1)`. -/
def capFirst : List Char → List Char
  | [] => []
  | c :: r => jsUpperChar c :: r

/-- Embedding of `resolveVendorName(llmVendorName, senderDomain, subject)`:
(1) extracted name (canonical table entry when the name matches a known
vendor case-insensitively); (2) known-domain lookup; (3) subject pattern
match; (4) capitalized first domain label; else "Unknown".  Returns
(name, category). -/
def resolveVendorName (llmVendorName : Option String) (senderDomain : Option String)
    (subject : Option String) : String × Option String :=
  let p1 : Option (String × Option String) :=
    match llmVendorName with
    | some v =>
      if v ≠ "" && jsTrimStr v ≠ "" then
        match KNOWN_SAAS_DOMAINS.find? (fun e => jsLowerStr e.2.1 = jsLowerStr v) with
        | some e => some (e.2.1, some e.2.2)
        | none => some (v, none)
      else none
    | none => none
  match p1 with
  | some r => r
  | none =>
    let p2 : Option (String × Option String) :=
      senderDomain.bind (fun d =>
        (KNOWN_SAAS_DOMAINS.find? (fun e => e.1 = d)).map (fun e => (e.2.1, some e.2.2)))
    match p2 with
    | some r => r
    | none =>
      let p3 : Option (String × Option String) :=
        subject.bind (fun s =>
          if s = "" then none
          else (detectSaaSVendor s).map (fun p => (p.1, some p.2)))
      match p3 with
      | some r => r
      | none =>
        match senderDomain with
        | some d =>
          if d ≠ "" then (⟨capFirst ((splitChar '.' d.data).headD [])⟩, none)
          else ("Unknown", none)
        | none => ("Unknown", none)

/-- Embedding of `getVendorCategory(domain)`. -/
def getVendorCategory (domain : Option String) : Option String :=
  domain.bind (fun d =>
    if d = "" then none
    else (KNOWN_SAAS_DOMAINS.find? (fun e => e.1 = d)).map (fun e => e.2.2))

/-! ## `gmail.ts` — inbox scan pipeline

The Gmail API and the Prisma store are external collaborators.  The store
is embedded as an explicit state: the set of processed Gmail message ids,
the vendor rows and the subscription rows.  A vendor row's identity for
the subscription key is its `normalizedName` (unique among rows this
pipeline creates, since creation happens only after lookup by that key
fails).  The Stage 2 extraction call (`extractSubscriptionFromEmail`,
LLM with regex fallback) enters as a function-valued parameter
`extractor`. -/

structure VendorRow where
  name : String
  normalizedName : String
  domain : Option String
  category : String
  isSaaS : Bool
deriving DecidableEq, Repr

structure SubRow where
  userId : String
  vendorKey : String
  source : String
  renewalDate : Option JSDate
  billingCycle : Option BillingCycle
  amount : Option ℚ
  plan : Option String
  seats : Option Nat
  currency : String
  confidenceScore : Confidence
  gmailMessageId : String
deriving DecidableEq, Repr

structure DBState where
  gmailIds : List String
  vendors : List VendorRow
  subs : List SubRow
deriving DecidableEq, Repr

/-- An inbound email message's content after header extraction (`Subject`,
`From`, snippet and decoded body); its Gmail message id travels separately,
as in the code. -/
structure EmailMsg where
  subject : Option String
  fromAddr : Option String
  snippet : Option String
  body : Option String
deriving DecidableEq, Repr

def SUBSCRIPTION_KEYWORDS : List String :=
  ["renewal", "auto-renew", "auto renew", "subscription", "invoice",
   "payment", "billing", "upcoming charge", "annual renewal",
   "monthly renewal", "your plan", "payment due", "receipt", "charge"]

/-- Stage 1 classification: some keyword occurs in
`subject + ' ' + snippet + ' ' + body`, lowercased. -/
def isSubscriptionMsg (msg : EmailMsg) : Bool :=
  let textToCheck :=
    jsLower ((msg.subject.getD "") ++ " " ++ (msg.snippet.getD "") ++ " " ++
      (msg.body.getD "")).data
  SUBSCRIPTION_KEYWORDS.any (fun k => containsSub (jsLower k.data) textToCheck)

/-- `from.match(/@([a-zA-Z0-9.-]+)/)`: the run of domain characters after
the first `@` that is followed by at least one such character, lowercased. -/
def senderDomainOf (fromAddr : Option String) : Option String :=
  fromAddr.bind (fun f => domScan f.data)
where
  isDomCh (c : Char) : Bool := isLetterCh c || isDigitCh c || c = '.' || c = '-'
  domScan : List Char → Option String
    | [] => none
    | '@' :: rest =>
      let run := rest.takeWhile isDomCh
      if run.isEmpty then domScan rest else some ⟨jsLower run⟩
    | _ :: rest => domScan rest

def GENERIC_EMAIL_DOMAINS : List String :=
  ["gmail.com", "yahoo.com", "hotmail.com", "outlook.com",
   "aol.com", "icloud.com", "mail.com", "protonmail.com"]

structure CreateSubResult where
  vendors : List VendorRow
  subs : List SubRow
  subscriptionCreated : Bool
  vendorCreated : Bool
  extractionArgs : Option String × Option String × Option String

/-- `const amount = extracted?.amount || null` (a zero amount is falsy). -/
def coalescedAmount (extracted : Option ExtractedSub) : Option ℚ :=
  extracted.bind (fun e => e.amount.bind (fun q => if q = 0 then none else some q))

/-- The parsed `renewalDate`: `new Date(extracted.renewal_date)` when that
field is truthy and parses to a valid date. -/
def coalescedRenewal (extracted : Option ExtractedSub) : Option JSDate :=
  match extracted with
  | some e =>
    match e.renewal_date with
    | some s => if s = "" then none else jsNewDateISO s
    | none => none
  | none => none

/-- `const plan = extracted?.plan || null` (an empty plan is falsy). -/
def coalescedPlan (extracted : Option ExtractedSub) : Option String :=
  extracted.bind (fun e => e.plan.bind (fun s => if s = "" then none else some s))

/-- Embedding of `createSubscriptionFromEmail` (`gmail.ts`): Stage 2
extraction, vendor resolution, vendor lookup-or-create, the meaningful-data
validation, and the subscription upsert keyed on
`(userId, vendorId, source='gmail')`. -/
def createSubscriptionFromEmail
    (extractor : Option String → Option String → Option String → Option ExtractedSub)
    (vendors : List VendorRow) (subs : List SubRow)
    (userId messageId senderDomain : String)
    (fromAddr subject body : Option String) : CreateSubResult :=
  let extracted := extractor subject body fromAddr
  let llmName : Option String :=
    match extracted with
    | some e => if e.vendor_name = "" then none else some e.vendor_name
    | none => none
  let resolved := resolveVendorName llmName (some senderDomain) subject
  let vendorName := resolved.1
  let extractedCategory := resolved.2
  let isGenericDomain := GENERIC_EMAIL_DOMAINS.contains (jsLowerStr senderDomain)
  let key := emailVendorKey vendorName
  let byName := vendors.find? (fun v => v.normalizedName = key)
  let found :=
    match byName with
    | some v => some v
    | none =>
      if senderDomain ≠ "" && !isGenericDomain then
        vendors.find? (fun v => v.domain = some senderDomain)
      else none
  let (vendor, vendors2, vendorCreated) :=
    match found with
    | some v => (v, vendors, false)
    | none =>
      let category :=
        match extractedCategory with
        | some c => if c = "" then (getVendorCategory (some senderDomain)).getD "Uncategorized" else c
        | none => (getVendorCategory (some senderDomain)).getD "Uncategorized"
      let vendorDomain :=
        match extracted with
        | some e =>
          match e.vendor_domain with
          | some d =>
            if d = "" then (if isGenericDomain then key ++ ".com" else senderDomain) else d
          | none => if isGenericDomain then key ++ ".com" else senderDomain
        | none => if isGenericDomain then key ++ ".com" else senderDomain
      let v : VendorRow := ⟨vendorName, key, some vendorDomain, category, true⟩
      (v, vendors ++ [v], true)
  let renewalDate : Option JSDate := coalescedRenewal extracted
  let amount : Option ℚ := coalescedAmount extracted
  let billingCycle : Option BillingCycle := extracted.bind (fun e => e.billing_cycle)
  let plan : Option String := coalescedPlan extracted
  let seats : Option Nat :=
    extracted.bind (fun e => e.seats.bind (fun n => if n = 0 then none else some n))
  let currency : String :=
    ((extracted.bind (fun e => e.currency)).bind
      (fun s => if s = "" then none else some s)).getD "USD"
  let confidence : Confidence := (extracted.map (fun e => e.confidence)).getD Confidence.low
  if amount = none ∧ renewalDate = none ∧ plan = none then
    ⟨vendors2, subs, false, vendorCreated, (subject, body, fromAddr)⟩
  else
    let keyMatch := fun (s : SubRow) =>
      s.userId = userId && s.vendorKey = vendor.normalizedName && s.source = "gmail"
    let subs2 :=
      if subs.any keyMatch then
        subs.map (fun s =>
          if keyMatch s then
            { s with
              renewalDate := match renewalDate with | some d => some d | none => s.renewalDate
              amount := match amount with | some a => some a | none => s.amount
              billingCycle := match billingCycle with | some b => some b | none => s.billingCycle
              plan := match plan with | some p => some p | none => s.plan
              seats := match seats with | some n => some n | none => s.seats
              currency := currency
              confidenceScore := confidence
              gmailMessageId := messageId }
          else s)
      else
        subs ++ [⟨userId, vendor.normalizedName, "gmail", renewalDate, billingCycle,
          amount, plan, seats, currency, confidence, messageId⟩]
    ⟨vendors2, subs2, true, vendorCreated, (subject, body, fromAddr)⟩

structure ProcessResult where
  db : DBState
  subscriptionCreated : Bool
  vendorCreated : Bool
  /-- The `(subject, body, sender)` triple handed to Stage 2 extraction,
  `none` when Stage 2 was not invoked. -/
  extractionCall : Option (Option String × Option String × Option String)

/-- Embedding of `processNewMessage`: store the message, run Stage 1
keyword classification, and run Stage 2 only when the message classified
as subscription-related *and* a sender domain was extracted. -/
def processNewMessage
    (extractor : Option String → Option String → Option String → Option ExtractedSub)
    (db : DBState) (userId messageId : String) (msg : EmailMsg) : ProcessResult :=
  let senderDomain := senderDomainOf msg.fromAddr
  let isSubscription := isSubscriptionMsg msg
  let withMsg : DBState := ⟨messageId :: db.gmailIds, db.vendors, db.subs⟩
  match senderDomain with
  | some d =>
    if isSubscription then
      let r := createSubscriptionFromEmail extractor withMsg.vendors withMsg.subs
        userId messageId d msg.fromAddr msg.subject msg.body
      ⟨⟨withMsg.gmailIds, r.vendors, r.subs⟩, r.subscriptionCreated, r.vendorCreated,
        some r.extractionArgs⟩
    else ⟨withMsg, false, false, none⟩
  | none => ⟨withMsg, false, false, none⟩

structure ScanCounts where
  newMessages : Nat
  subscriptionsCreated : Nat
  vendorsCreated : Nat
  skippedCount : Nat
deriving DecidableEq, Repr

def ScanCounts.zero : ScanCounts := ⟨0, 0, 0, 0⟩

/-- The message loop of `scanInbox`: `fetch` stands for the Gmail
`messages.get` call, mapping a message id to its content.  A falsy id is
passed over; an id already in the `gmailMessage` table only bumps the
skipped count. -/
def scanLoop
    (extractor : Option String → Option String → Option String → Option ExtractedSub)
    (fetch : String → EmailMsg) (userId : String) :
    DBState → List String → DBState × ScanCounts
  | db, [] => (db, ScanCounts.zero)
  | db, id :: rest =>
    if id = "" then scanLoop extractor fetch userId db rest
    else if db.gmailIds.contains id then
      let r := scanLoop extractor fetch userId db rest
      (r.1, { r.2 with skippedCount := r.2.skippedCount + 1 })
    else
      let p := processNewMessage extractor db userId id (fetch id)
      let r := scanLoop extractor fetch userId p.db rest
      (r.1,
       { r.2 with
         newMessages := r.2.newMessages + 1
         subscriptionsCreated := r.2.subscriptionsCreated + (if p.subscriptionCreated then 1 else 0)
         vendorsCreated := r.2.vendorsCreated + (if p.vendorCreated then 1 else 0) })

/-- Embedding of `scanInbox` over a fetched batch of message ids (the
`messagesScanned` count of the result is the batch length). -/
def scanInbox
    (extractor : Option String → Option String → Option String → Option ExtractedSub)
    (fetch : String → EmailMsg) (userId : String)
    (db : DBState) (refs : List String) : DBState × ScanCounts :=
  scanLoop extractor fetch userId db refs

/-! ## Character-class lemmas -/

theorem not_isWS_of_isWordCh {c : Char} (h : isWordCh c = true) : isWS c = false := by
  cases hw : isWS c
  · rfl
  · exfalso
    simp only [isWS, Bool.or_eq_true, decide_eq_true_eq] at hw
    rcases hw with (((((rfl | rfl) | rfl) | rfl) | rfl) | rfl) <;> exact absurd h (by decide)

theorem isWordCh_jsLowerChar {c : Char} (h : isWordCh c = true) :
    isWordCh (jsLowerChar c) = true := by
  unfold jsLowerChar
  split <;> first | decide | exact h

theorem dropWhileWS_eq_self {l : List Char} (h : ∀ c ∈ l, isWS c = false) :
    l.dropWhile isWS = l := by
  cases l with
  | nil => rfl
  | cons c cs => simp [List.dropWhile_cons, h c (List.mem_cons_self c cs)]

theorem jsTrim_eq_self {l : List Char} (h : ∀ c ∈ l, isWS c = false) :
    jsTrim l = l := by
  unfold jsTrim
  rw [dropWhileWS_eq_self h,
    dropWhileWS_eq_self (by intro c hc; exact h c (List.mem_reverse.mp hc)),
    List.reverse_reverse]

theorem collapseWS_eq_self {l : List Char} (h : ∀ c ∈ l, isWS c = false) :
    collapseWS l = l := by
  induction l with
  | nil => rfl
  | cons c cs ih =>
    cases cs with
    | nil => simp [collapseWS, h c (List.mem_cons_self c [])]
    | cons d ds =>
      have hc := h c (List.mem_cons_self c (d :: ds))
      have hrest : ∀ x ∈ d :: ds, isWS x = false := fun x hx => h x (List.mem_cons_of_mem c hx)
      simp only [collapseWS, hc, Bool.false_eq_true, if_false]
      rw [ih hrest]

/-! ## Claims -/

/-- C1, counterexample: an email whose text holds both a monthly token and
a yearly token.  `extractWithRegex` returns a record whose `billing_cycle`
is `monthly`, not `yearly` — the monthly test runs first and wins. -/
theorem C1_counterexample_monthly_wins :
    hasMonthlyTok ("Acme Subscription billed monthly or yearly" : String).data = true ∧
    hasYearlyTok ("Acme Subscription billed monthly or yearly" : String).data = true ∧
    (extractWithRegex (some "Acme Subscription") (some "billed monthly or yearly")).map
      (fun e => e.billing_cycle) = some (some BillingCycle.monthly) ∧
    (extractWithRegex (some "Acme Subscription") (some "billed monthly or yearly")).map
      (fun e => e.billing_cycle) ≠ some (some BillingCycle.yearly) := by
  refine ⟨by decide, by decide, by decide, by decide⟩

/-- C1, amended: the fallback extractor's `billing_cycle` comes from
substring presence of the monthly / yearly token groups checked in that
order — `monthly` wins when both appear, `yearly` is produced exactly when
a yearly token appears without any monthly token, and no quarterly token is
consulted (the field has no quarterly value). -/
theorem C1_extractWithRegex_billing_cycle :
    (∀ subject body e, extractWithRegex subject body = some e →
      e.billing_cycle =
        regexBillingCycle ((subject.getD "") ++ " " ++ (body.getD "")).data)
    ∧ (∀ t, hasMonthlyTok t = true → regexBillingCycle t = some BillingCycle.monthly)
    ∧ (∀ t, regexBillingCycle t = some BillingCycle.yearly ↔
        hasMonthlyTok t = false ∧ hasYearlyTok t = true) := by
  refine ⟨?_, ?_, ?_⟩
  · intro subject body e h
    simp only [extractWithRegex] at h
    split at h
    · exact absurd h (by simp)
    · obtain rfl := Option.some.inj h
      rfl
  · intro t h
    simp [regexBillingCycle, h]
  · intro t
    unfold regexBillingCycle
    cases hm : hasMonthlyTok t <;> cases hy : hasYearlyTok t <;> simp

/-- C1, witness: a concrete application of the amended theorem. -/
theorem C1_witness :
    hasMonthlyTok ("billed monthly and yearly" : String).data = true ∧
    regexBillingCycle ("billed monthly and yearly" : String).data =
      some BillingCycle.monthly :=
  ⟨by decide,
   C1_extractWithRegex_billing_cycle.2.1 ("billed monthly and yearly" : String).data
     (by decide)⟩

/-- C2, counterexample: the email channel's key (lowercase, remove all
whitespace) and `normalizeVendorName` (lowercase, strip punctuation,
collapse whitespace) disagree — on a punctuated name such as the known
vendor "Monday.com", and on any name with inner whitespace. -/
theorem C2_counterexample_keys_differ :
    emailVendorKey "Monday.com" = "monday.com" ∧
    normalizeVendorName "Monday.com" = "mondaycom" ∧
    emailVendorKey "Monday.com" ≠ normalizeVendorName "Monday.com" ∧
    emailVendorKey "My Vendor" = "myvendor" ∧
    normalizeVendorName "My Vendor" = "my vendor" ∧
    emailVendorKey "My Vendor" ≠ normalizeVendorName "My Vendor" := by
  refine ⟨by decide, by decide, by decide, by decide, by decide, by decide⟩

/-- C2, amended: the two identity keys coincide exactly on vendor names
made of word characters only (letters, digits, underscore — no whitespace,
no punctuation); for such names both keys are the lowercased name, so the
CSV and email channels agree on them, while names with whitespace or
punctuation are keyed differently by the two channels. -/
theorem C2_keys_agree_on_word_names :
    ∀ name : String, (∀ c ∈ name.data, isWordCh c = true) →
      emailVendorKey name = normalizeVendorName name := by
  intro name h
  have hl : ∀ c ∈ jsLower name.data, isWordCh c = true := by
    intro c hc
    simp only [jsLower, List.mem_map] at hc
    obtain ⟨a, ha, rfl⟩ := hc
    exact isWordCh_jsLowerChar (h a ha)
  have hnws : ∀ c ∈ jsLower name.data, isWS c = false :=
    fun c hc => not_isWS_of_isWordCh (hl c hc)
  unfold emailVendorKey normalizeVendorName
  congr 1
  rw [removeWS, List.filter_eq_self.mpr (by intro a ha; simp [hnws a ha])]
  rw [jsTrim_eq_self hnws]
  rw [keepWordWS, List.filter_eq_self.mpr (by intro a ha; simp [hl a ha])]
  rw [collapseWS_eq_self hnws]

/-- C2, witness: a concrete application of the amended theorem. -/
theorem C2_witness :
    (∀ c ∈ ("GitHub" : String).data, isWordCh c = true) ∧
    emailVendorKey "GitHub" = normalizeVendorName "GitHub" :=
  ⟨by decide, C2_keys_agree_on_word_names "GitHub" (by decide)⟩

/-- C3: for `annual`, the renewal date is 11 months after the first
transaction date, advanced by whole years just until it is on or after
`now` (the existential `k` is the exact number of whole-year advances, with
every smaller advance still before `now`); without a first date the base is
11 months after the last transaction date; and for a first transaction on
2024-01-15 with the 11-month date not yet passed, the result is 2024-12-15
(month index 11), not 2025-01-15. -/
theorem C3_calculateRenewalDate_annual :
    (∀ now last first : JSDate, ∃ k,
      calculateRenewalDate now last Frequency.annual (some first) =
        addYearIter (addMonths first 11) k ∧
      dateLt (addYearIter (addMonths first 11) k) now = false ∧
      ∀ j, j < k → dateLt (addYearIter (addMonths first 11) j) now = true)
    ∧ (∀ now last : JSDate, ∃ k,
      calculateRenewalDate now last Frequency.annual none =
        addYearIter (addMonths last 11) k ∧
      dateLt (addYearIter (addMonths last 11) k) now = false ∧
      ∀ j, j < k → dateLt (addYearIter (addMonths last 11) j) now = true)
    ∧ (∀ now last : JSDate, dateLt (mkDate 2024 11 15) now = false →
      calculateRenewalDate now last Frequency.annual (some (mkDate 2024 0 15)) =
        mkDate 2024 11 15) := by
  refine ⟨?_, ?_, ?_⟩
  · intro now last first
    exact rollYears_eq_iter now _ (addMonths first 11) (le_refl _)
  · intro now last
    exact rollYears_eq_iter now _ (addMonths last 11) (le_refl _)
  · intro now last h
    show rollYears now (addMonths (mkDate 2024 0 15) 11) = mkDate 2024 11 15
    rw [show addMonths (mkDate 2024 0 15) 11 = mkDate 2024 11 15 from by decide]
    exact rollYears_of_not_lt now _ h

/-- C3, witness: with `now` = 2024-11-01 the 2024-12-15 renewal has not
passed, and the function returns it. -/
theorem C3_witness :
    dateLt (mkDate 2024 11 15) (mkDate 2024 10 1) = false ∧
    calculateRenewalDate (mkDate 2024 10 1) (mkDate 2024 5 20) Frequency.annual
      (some (mkDate 2024 0 15)) = mkDate 2024 11 15 :=
  ⟨by decide,
   C3_calculateRenewalDate_annual.2.2 (mkDate 2024 10 1) (mkDate 2024 5 20) (by decide)⟩

/-- C5: `detectFrequency` is `monthly` on fewer than two dates; on two or
more dates it classifies the mean inter-transaction gap (in days, over the
chronologically sorted series) with thresholds 45 / 120 / 400; and the
two-date series with gaps of 30, 100, 200 and 500 days classify as
monthly, quarterly, annual and one-time respectively. -/
theorem C5_detectFrequency_spec :
    (∀ dates : List Int, dates.length < 2 → detectFrequency dates = Frequency.monthly)
    ∧ (∀ dates : List Int, 2 ≤ dates.length →
        detectFrequency dates = classifyAvgDays (meanGapDays dates))
    ∧ detectFrequency [0, 30 * 86400000] = Frequency.monthly
    ∧ detectFrequency [0, 100 * 86400000] = Frequency.quarterly
    ∧ detectFrequency [0, 200 * 86400000] = Frequency.annual
    ∧ detectFrequency [0, 500 * 86400000] = Frequency.one_time := by
  have key : ∀ dates : List Int, 2 ≤ dates.length →
      detectFrequency dates = classifyAvgDays (meanGapDays dates) := by
    intro dates h
    have hmean : gapSumDays (sortTimes dates) / (((sortTimes dates).length : ℚ) - 1) =
        meanGapDays dates := by
      unfold meanGapDays
      rw [gapSumDays_eq_zip, length_sortTimes]
    simp only [detectFrequency, classifyAvgDays]
    rw [if_neg (show ¬dates.length < 2 by omega)]
    rw [hmean]
  refine ⟨?_, key, ?_, ?_, ?_, ?_⟩
  · intro dates h
    simp [detectFrequency, h]
  · norm_num [detectFrequency, sortTimes, insertAsc, gapSumDays]
  · norm_num [detectFrequency, sortTimes, insertAsc, gapSumDays]
  · norm_num [detectFrequency, sortTimes, insertAsc, gapSumDays]
  · norm_num [detectFrequency, sortTimes, insertAsc, gapSumDays]

/-- C5, witness: concrete applications of the two quantified conjuncts. -/
theorem C5_witness :
    ([5] : List Int).length < 2 ∧ detectFrequency [5] = Frequency.monthly ∧
    2 ≤ ([0, 2592000000] : List Int).length ∧
    detectFrequency [0, 2592000000] = classifyAvgDays (meanGapDays [0, 2592000000]) :=
  ⟨by decide, C5_detectFrequency_spec.1 [5] (by decide), by decide,
   C5_detectFrequency_spec.2.1 [0, 2592000000] (by decide)⟩

/-- C4: a Subscription row is created or updated only when at least one of
the coalesced amount, parsed renewal date, or plan is non-null; when all
three are null the subscription table is left untouched and no creation is
reported, whatever the extracted vendor name and confidence. -/
theorem C4_subscription_requires_signal :
    ∀ (extractor : Option String → Option String → Option String → Option ExtractedSub)
      (vendors : List VendorRow) (subs : List SubRow)
      (userId messageId senderDomain : String) (fromAddr subject body : Option String),
      (coalescedAmount (extractor subject body fromAddr) = none ∧
        coalescedRenewal (extractor subject body fromAddr) = none ∧
        coalescedPlan (extractor subject body fromAddr) = none →
        (createSubscriptionFromEmail extractor vendors subs userId messageId senderDomain
          fromAddr subject body).subs = subs ∧
        (createSubscriptionFromEmail extractor vendors subs userId messageId senderDomain
          fromAddr subject body).subscriptionCreated = false)
      ∧ ((createSubscriptionFromEmail extractor vendors subs userId messageId senderDomain
          fromAddr subject body).subscriptionCreated = true →
        ¬(coalescedAmount (extractor subject body fromAddr) = none ∧
          coalescedRenewal (extractor subject body fromAddr) = none ∧
          coalescedPlan (extractor subject body fromAddr) = none)) := by
  intro extractor vendors subs userId messageId senderDomain fromAddr subject body
  constructor
  · intro h
    obtain ⟨h1, h2, h3⟩ := h
    simp only [createSubscriptionFromEmail, h1, h2, h3]
    simp
  · intro h habs
    obtain ⟨h1, h2, h3⟩ := habs
    simp only [createSubscriptionFromEmail, h1, h2, h3] at h
    simp at h

/-- C4, witness: with an extractor yielding nothing, no subscription row
appears. -/
theorem C4_witness :
    (createSubscriptionFromEmail (fun _ _ _ => none) [] [] "u1" "m1" "acme.com"
      none none none).subs = ([] : List SubRow) ∧
    (createSubscriptionFromEmail (fun _ _ _ => none) [] [] "u1" "m1" "acme.com"
      none none none).subscriptionCreated = false :=
  C4_subscription_requires_signal (fun _ _ _ => none) [] [] "u1" "m1" "acme.com"
    none none none |>.1 ⟨rfl, rfl, rfl⟩

/-- The Stage 2 call of `createSubscriptionFromEmail` always receives the
message's `(subject, body, sender)`. -/
theorem createSubscriptionFromEmail_args (extractor) (vendors : List VendorRow)
    (subs : List SubRow) (userId messageId senderDomain : String)
    (fromAddr subject body : Option String) :
    (createSubscriptionFromEmail extractor vendors subs userId messageId senderDomain
      fromAddr subject body).extractionArgs = (subject, body, fromAddr) := by
  simp only [createSubscriptionFromEmail]
  split <;> rfl

/-- C6, counterexample: a newly received message classified as
subscription-related by Stage 1 (subject "Your invoice") whose sender has
no extractable domain never reaches Stage 2 — the pipeline requires
`isSubscription && senderDomain`, not Stage 1 alone. -/
theorem C6_counterexample_no_domain_no_stage2 :
    isSubscriptionMsg ⟨some "Your invoice", none, none, none⟩ = true ∧
    (processNewMessage (fun _ _ _ => none) ⟨[], [], []⟩ "u1" "m1"
      ⟨some "Your invoice", none, none, none⟩).extractionCall = none := by
  refine ⟨by decide, by decide⟩

/-- C6, amended: for every newly received message whose Stage 1 keyword
classification is true *and* whose sender domain was extracted, the
pipeline invokes the structured-extraction function with that message's
subject, body and sender. -/
theorem C6_stage2_invocation :
    ∀ (extractor : Option String → Option String → Option String → Option ExtractedSub)
      (db : DBState) (userId messageId : String) (msg : EmailMsg),
      isSubscriptionMsg msg = true →
      senderDomainOf msg.fromAddr ≠ none →
      (processNewMessage extractor db userId messageId msg).extractionCall =
        some (msg.subject, msg.body, msg.fromAddr) := by
  intro extractor db userId messageId msg h1 h2
  cases hd : senderDomainOf msg.fromAddr with
  | none => exact absurd hd h2
  | some d =>
    simp only [processNewMessage, hd, h1, if_true]
    rw [createSubscriptionFromEmail_args]

/-- C6, witness: a keyword-classified message from `billing@notion.so`
reaches Stage 2 with its subject, body and sender. -/
theorem C6_witness :
    isSubscriptionMsg ⟨some "Your invoice", some "billing@notion.so", none,
      some "see attached"⟩ = true ∧
    senderDomainOf (some "billing@notion.so") ≠ none ∧
    (processNewMessage (fun _ _ _ => none) ⟨[], [], []⟩ "u1" "m2"
      ⟨some "Your invoice", some "billing@notion.so", none, some "see attached"⟩).extractionCall =
      some (some "Your invoice", some "see attached", some "billing@notion.so") :=
  ⟨by decide, by decide,
   C6_stage2_invocation (fun _ _ _ => none) ⟨[], [], []⟩ "u1" "m2"
     ⟨some "Your invoice", some "billing@notion.so", none, some "see attached"⟩
     (by decide) (by decide)⟩

/-- C7, counterexample: with the extracted vendor name "github" the
resolver returns the known-vendor table's canonical name "GitHub" (with its
category) — the table does override the literal extracted name, by
canonicalizing its case. -/
theorem C7_counterexample_case_override :
    resolveVendorName (some "github") (some "acme.com") none = ("GitHub", some "DevOps") ∧
    ("GitHub" : String) ≠ "github" := by
  refine ⟨by decide, by decide⟩

/-- C7, amended: the strict priority holds with the name preserved up to
letter case at priority 1 — a non-empty extracted name is returned either
verbatim or as the table's casing of the very same name (never a different
vendor's name), the table contributing only category and casing; the
concrete conjuncts pin priorities 1–4, including the spec's example that
sender domain gmail.com with a null extracted name and a Figma-matching
subject resolves to "Figma", not "Gmail". -/
theorem C7_resolveVendorName_priority :
    (∀ (v : String) (d s : Option String), v ≠ "" → jsTrimStr v ≠ "" →
      jsLowerStr (resolveVendorName (some v) d s).1 = jsLowerStr v)
    ∧ resolveVendorName (some "MyTool") (some "slack.com") none = ("MyTool", none)
    ∧ resolveVendorName none (some "slack.com") (some "Figma Subscription") =
        ("Slack", some "Communication")
    ∧ resolveVendorName none (some "gmail.com") (some "Figma Subscription Renewal") =
        ("Figma", some "Design")
    ∧ resolveVendorName none (some "gmail.com") (some "Figma Subscription Renewal") ≠
        ("Gmail", none)
    ∧ resolveVendorName none (some "example.com") none = ("Example", none) := by
  refine ⟨?_, by decide, by decide, by decide, by decide, by decide⟩
  intro v d s h1 h2
  unfold resolveVendorName
  have hcond : (decide (v ≠ "") && decide (jsTrimStr v ≠ "")) = true := by
    simp [h1, h2]
  simp only [hcond, if_true]
  cases hf : KNOWN_SAAS_DOMAINS.find? (fun e => jsLowerStr e.2.1 = jsLowerStr v) with
  | none => simp
  | some e =>
    have := List.find?_some hf
    simp only [decide_eq_true_eq] at this
    simp [this]

/-- C7, witness: a concrete application of the quantified conjunct. -/
theorem C7_witness :
    ("Notion" : String) ≠ "" ∧ jsTrimStr "Notion" ≠ "" ∧
    jsLowerStr (resolveVendorName (some "Notion") (some "gmail.com") none).1 =
      jsLowerStr "Notion" :=
  ⟨by decide, by decide,
   C7_resolveVendorName_priority.1 "Notion" (some "gmail.com") none (by decide) (by decide)⟩

theorem processNewMessage_gmailIds (extractor) (db : DBState) (u mid : String)
    (msg : EmailMsg) :
    (processNewMessage extractor db u mid msg).db.gmailIds = mid :: db.gmailIds := by
  cases hd : senderDomainOf msg.fromAddr with
  | none => simp [processNewMessage, hd]
  | some d =>
    simp only [processNewMessage, hd]
    split <;> rfl

theorem scanLoop_ids_suffix (e) (f : String → EmailMsg) (u : String) :
    ∀ (refs : List String) (db : DBState),
      db.gmailIds <:+ (scanLoop e f u db refs).1.gmailIds := by
  intro refs
  induction refs with
  | nil => intro db; exact List.suffix_refl _
  | cons id rest ih =>
    intro db
    unfold scanLoop
    split
    · exact ih db
    · split
      · exact ih db
      · exact List.IsSuffix.trans
          (by rw [processNewMessage_gmailIds]; exact List.suffix_cons _ _)
          (ih (processNewMessage e db u id (f id)).db)

theorem scanLoop_mem_ids (e) (f : String → EmailMsg) (u : String) :
    ∀ (refs : List String) (db : DBState) (id : String),
      id ∈ refs → id ≠ "" → id ∈ (scanLoop e f u db refs).1.gmailIds := by
  intro refs
  induction refs with
  | nil => intro db id h; cases h
  | cons idh rest ih =>
    intro db id hmem hne
    unfold scanLoop
    split
    · rcases List.mem_cons.mp hmem with rfl | hmem2
      · rename_i hh; exact absurd hh hne
      · exact ih db id hmem2 hne
    · split
      · rcases List.mem_cons.mp hmem with rfl | hmem2
        · rename_i hc
          have hm : id ∈ db.gmailIds := by simpa using hc
          exact (scanLoop_ids_suffix e f u rest db).subset hm
        · exact ih db id hmem2 hne
      · rcases List.mem_cons.mp hmem with rfl | hmem2
        · have hm : id ∈ (processNewMessage e db u id (f id)).db.gmailIds := by
            rw [processNewMessage_gmailIds]
            exact List.mem_cons_self _ _
          exact (scanLoop_ids_suffix e f u rest _).subset hm
        · exact ih _ id hmem2 hne

theorem scanLoop_all_skipped (e) (f : String → EmailMsg) (u : String) :
    ∀ (refs : List String) (db : DBState),
      (∀ id ∈ refs, id ≠ "" → id ∈ db.gmailIds) →
      scanLoop e f u db refs =
        (db, ⟨0, 0, 0, (refs.filter (fun i => i ≠ "")).length⟩) := by
  intro refs
  induction refs with
  | nil => intro db h; rfl
  | cons id rest ih =>
    intro db h
    unfold scanLoop
    by_cases hid : id = ""
    · rw [if_pos hid]
      rw [ih db (fun i hi hne => h i (List.mem_cons_of_mem id hi) hne)]
      simp [hid]
    · rw [if_neg hid]
      have hc : db.gmailIds.contains id = true := by
        simpa using h id (List.mem_cons_self id rest) hid
      rw [if_pos hc]
      rw [ih db (fun i hi hne => h i (List.mem_cons_of_mem id hi) hne)]
      simp [hid]

/-- C8: re-scanning already-processed Gmail message ids is a no-op: a
single already-seen id leaves the store untouched and only bumps the
skipped count, and a whole second scan of any batch leaves the store — in
particular every Vendor and Subscription row — exactly as the first scan
left it, counting every (non-empty) id as skipped. -/
theorem C8_rescan_is_noop :
    (∀ (extractor) (fetch : String → EmailMsg) (userId : String) (db : DBState)
      (id : String), id ≠ "" → db.gmailIds.contains id = true →
      scanInbox extractor fetch userId db [id] = (db, ⟨0, 0, 0, 1⟩))
    ∧ (∀ (extractor) (fetch : String → EmailMsg) (userId : String) (db : DBState)
      (refs : List String),
      scanInbox extractor fetch userId (scanInbox extractor fetch userId db refs).1 refs =
        ((scanInbox extractor fetch userId db refs).1,
         ⟨0, 0, 0, (refs.filter (fun i => i ≠ "")).length⟩)) := by
  constructor
  · intro e f u db id hne hc
    have h := scanLoop_all_skipped e f u [id] db (by
      intro i hi hne2
      rcases List.mem_cons.mp hi with rfl | hfalse
      · simpa using hc
      · cases hfalse)
    rw [show ([id].filter (fun i => i ≠ "")).length = 1 by simp [hne]] at h
    exact h
  · intro e f u db refs
    exact scanLoop_all_skipped e f u refs _
      (fun id hm hne => scanLoop_mem_ids e f u refs db id hm hne)

/-- C8, witness: a concrete second scan of an already-processed id. -/
theorem C8_witness :
    ("m1" : String) ≠ "" ∧
    (DBState.mk ["m1"] [] []).gmailIds.contains "m1" = true ∧
    scanInbox (fun _ _ _ => none) (fun _ => ⟨none, none, none, none⟩) "u1"
      ⟨["m1"], [], []⟩ ["m1"] = (⟨["m1"], [], []⟩, ⟨0, 0, 0, 1⟩) :=
  ⟨by decide, by decide,
   C8_rescan_is_noop.1 (fun _ _ _ => none) (fun _ => ⟨none, none, none, none⟩)
     "u1" ⟨["m1"], [], []⟩ "m1" (by decide) (by decide)⟩

/-- C9: when the resolved headers lack a date column, or both a description
and a vendor column, or an amount column, `parseCSV` aborts: it returns no
transactions and a non-empty error list, whatever the rows contain. -/
theorem C9_missing_columns_abort :
    ∀ (headers papaErrors : List String) (rows : List (List (String × String))),
      (findColumn headers DATE_COLUMNS = none ∨
        (findColumn headers DESCRIPTION_COLUMNS = none ∧
          findColumn headers VENDOR_COLUMNS = none) ∨
        findColumn headers AMOUNT_COLUMNS = none) →
      (parseCSV headers papaErrors rows).transactions = [] ∧
      (parseCSV headers papaErrors rows).errors ≠ [] := by
  intro headers papaErrors rows h
  cases hd : findColumn headers DATE_COLUMNS with
  | none => simp [parseCSV, hd]
  | some dc =>
    rcases h with h | ⟨h1, h2⟩ | h
    · rw [hd] at h; exact absurd h (by simp)
    · simp [parseCSV, hd, h1, h2]
    · by_cases hdv : findColumn headers DESCRIPTION_COLUMNS = none ∧
        findColumn headers VENDOR_COLUMNS = none
      · simp [parseCSV, hd, hdv]
      · simp [parseCSV, hd, hdv, h]

/-- C9, witness: headers with a date and a description but no amount-like
column abort the parse. -/
theorem C9_witness :
    findColumn ["Date", "Description"] AMOUNT_COLUMNS = none ∧
    (parseCSV ["Date", "Description"] []
      [[("Date", "2024-01-15"), ("Description", "Slack")]]).transactions = [] ∧
    (parseCSV ["Date", "Description"] []
      [[("Date", "2024-01-15"), ("Description", "Slack")]]).errors ≠ [] :=
  ⟨by decide,
   C9_missing_columns_abort ["Date", "Description"] []
     [[("Date", "2024-01-15"), ("Description", "Slack")]]
     (Or.inr (Or.inr (by decide)))⟩

theorem processRows_amount_ne_zero (dc : String) (descCol : Option String) (ac : String)
    (vendorCol categoryCol : Option String) :
    ∀ (rows : List (List (String × String))) (i : Nat),
      (processRows dc descCol ac vendorCol categoryCol i rows).1.Forall
        (fun t => t.amount ≠ 0) := by
  intro rows
  induction rows with
  | nil => intro i; trivial
  | cons row rest ih =>
    intro i
    simp only [processRows]
    cases hpd : parseDateCSV (rowGet row dc) with
    | none => simpa using ih (i + 1)
    | some date =>
      cases has : rowGet row ac with
      | none => simpa using ih (i + 1)
      | some amtStr =>
        by_cases hz : parseAmount amtStr = 0
        · simp only [has, if_pos hz]
          simpa using ih (i + 1)
        · simp only [has, if_neg hz]
          exact List.forall_cons (fun (t : ParsedTransaction) => t.amount ≠ 0) _ _ |>.mpr ⟨hz, ih (i + 1)⟩

/-- C10: `parseAmount` handles the accounting and currency formats —
`"(1,234.50)"` gives `1234.50`, `"$0.00"` gives `0`, unparseable text gives
`0`, a leading minus is dropped (`"-45.10"` gives `45.10`) — and every
transaction `parseCSV` returns has a non-zero amount: rows whose amount
parses to exactly `0` are excluded. -/
theorem C10_parseAmount_zero_excluded :
    parseAmount "(1,234.50)" = (1234.5 : ℚ) ∧
    parseAmount "$0.00" = 0 ∧
    parseAmount "abc" = 0 ∧
    parseAmount "-45.10" = (45.1 : ℚ) ∧
    ∀ (headers papaErrors : List String) (rows : List (List (String × String))),
      (parseCSV headers papaErrors rows).transactions.Forall (fun t => t.amount ≠ 0) := by
  refine ⟨?_, ?_, ?_, ?_, ?_⟩
  · rw [parseAmount, show parseAmountParts "(1,234.50)" = some (false, 123450, 2, 0)
      from by decide]
    norm_num [ratOfParts]
  · rw [parseAmount, show parseAmountParts "$0.00" = some (false, 0, 2, 0) from by decide]
    norm_num [ratOfParts]
  · rw [parseAmount, show parseAmountParts "abc" = none from by decide]
  · rw [parseAmount, show parseAmountParts "-45.10" = some (false, 4510, 2, 0)
      from by decide]
    norm_num [ratOfParts]
  · intro headers papaErrors rows
    cases hd : findColumn headers DATE_COLUMNS with
    | none => simp [parseCSV, hd]
    | some dc =>
      by_cases hdv : findColumn headers DESCRIPTION_COLUMNS = none ∧
        findColumn headers VENDOR_COLUMNS = none
      · simp [parseCSV, hd, hdv]
      · cases ha : findColumn headers AMOUNT_COLUMNS with
        | none => simp [parseCSV, hd, hdv, ha]
        | some ac =>
          simp only [parseCSV, hd, hdv, ha, if_neg hdv]
          exact processRows_amount_ne_zero dc _ ac _ _ rows 0

end SubSentry
